import Mathlib

/-!
Verification of the tool registry and MCP protocol server of the
agent-mcp-gateway browser extension.

The development shallowly embeds the TypeScript source:

* `src/shared/types.ts` — the entity model (`DiscoveredTool`,
  `RegisteredTool`, `ToolSource`, `AuthState`, MCP result shapes);
* `src/shared/constants.ts` — the numeric limits;
* `src/background/tool-registry.ts` — the `ToolRegistry` class.  The
  JavaScript `Map` keyed by tool id is embedded as an insertion-ordered
  `List RegisteredTool` (a `Map.set` on an existing key replaces the entry
  in place, otherwise it appends; iteration follows insertion order).
  `Date.now()` is passed explicitly as a `now : Nat` argument.  The
  grace-period timers of `onTabRemoved` are embedded as the
  `pendingRemoval` id set together with an explicit `fireRemoval` step
  that models one timer elapsing; `clearTimeout` is modelled by removing
  the id from the set, after which `fireRemoval` is a no-op.  Change
  listeners are embedded as `(lid, throws)` pairs; every mutating
  operation returns, next to the new state, the list of listener ids it
  invoked, in invocation order — the `try`/`catch` around each listener
  call means every listener runs regardless of the `throws` flags.
* `src/background/mcp-server.ts` — `executeToolCall` and
  `handleMCPRequest`.  The asynchronous race between
  `chrome.tabs.sendMessage` and the timeout promise is embedded by a
  three-valued `DispatchOutcome` oracle argument (success / rejection /
  timeout) describing what the race produced; the `catch` block is the
  function `dispatchCatch`.
* `src/background/session-manager.ts` — the `PAGE_TOOLS` batch branch
  for origins without curated definitions (`handlePageToolsBatch`).
  `new URL(u).origin` is passed as an `Option String` parse result.
-/

set_option maxRecDepth 100000

set_option maxHeartbeats 1000000

namespace AgentGateway

/-! ## Constants (src/shared/constants.ts) -/

def MAX_TOOLS_PER_ORIGIN : Nat := 50

def MAX_TOTAL_TOOLS : Nat := 200

def TOOL_EXECUTION_TIMEOUT : Nat := 30000

def CLOSED_TAB_GRACE_PERIOD : Nat := 120000

def GATEWAY_NAME : String := "arcede-agent-gateway"

def GATEWAY_VERSION : String := "0.1.0"

/-! ## Entity model (src/shared/types.ts) -/

inductive ToolSource where
  | webmcpNative
  | webmcpDeclarative
  | curatedBundle
  | communityRegistry
  | domFallback
deriving DecidableEq, Repr

inductive AuthState where
  | authenticated
  | unknown
  | loginRequired
deriving DecidableEq, Repr

/-- `JSONSchemaProperty` of the source; `items` is the recursive nesting,
`default? : unknown` is represented by an opaque string. -/
inductive JSONSchemaProperty where
  | mk (ptype : String) (description : Option String) (enumVals : Option (List String))
      (defaultVal : Option String) (items : Option JSONSchemaProperty)

structure JSONSchema where
  type : String
  properties : Option (List (String × JSONSchemaProperty))
  required : Option (List String)
  description : Option String

structure DiscoveredTool where
  name : String
  description : String
  inputSchema : JSONSchema
  source : ToolSource
  selector : Option String

structure RegisteredTool where
  id : String
  name : String
  description : String
  inputSchema : JSONSchema
  source : ToolSource
  origin : String
  tabId : Int
  url : String
  discoveredAt : Nat
  lastVerified : Nat
  authState : AuthState
  selector : Option String

/-- Shape of the entries of the curated-definition lists passed to
`registerCurated` (name, description, inputSchema, selector). -/
structure CuratedToolDef where
  name : String
  description : String
  inputSchema : JSONSchema
  selector : String

structure MCPToolDefinition where
  name : String
  description : String
  inputSchema : JSONSchema

/-- One `{type:'text', text}` content item of an MCP tool call result. -/
structure MCPContent where
  type : String
  text : String
deriving DecidableEq, Repr

structure MCPToolCallResult where
  content : List MCPContent
  isError : Option Bool
deriving DecidableEq, Repr

/-- A change listener: its registration identity plus whether its
callback throws when invoked. -/
structure Listener where
  lid : Nat
  throws : Bool
deriving DecidableEq, Repr

/-! ## Registry state -/

structure ToolRegistry where
  tools : List RegisteredTool
  pendingRemoval : List String
  listeners : List Listener

namespace ToolRegistry

def empty : ToolRegistry := ⟨[], [], []⟩

/-- `Map.set`: replace in place when the key is present, append otherwise. -/
def mapSet (l : List RegisteredTool) (t : RegisteredTool) : List RegisteredTool :=
  if l.any (fun u => u.id == t.id) then
    l.map (fun u => if u.id == t.id then t else u)
  else
    l ++ [t]

/-- `Map.get`. -/
def mapGet (l : List RegisteredTool) (id : String) : Option RegisteredTool :=
  l.find? (fun u => u.id == id)

/-- The ids the `for (const listener of this.listeners)` loop of
`notifyListeners` invokes: all of them, in registration order — the
`try`/`catch` per listener swallows exceptions, so a throwing listener
never stops the iteration. -/
def notifyEvents (r : ToolRegistry) : List Nat :=
  r.listeners.map (fun l => l.lid)

def getByOrigin (r : ToolRegistry) (origin : String) : List RegisteredTool :=
  r.tools.filter (fun t => t.origin == origin)

def getByTab (r : ToolRegistry) (tabId : Int) : List RegisteredTool :=
  r.tools.filter (fun t => t.tabId == tabId)

def getAll (r : ToolRegistry) : List RegisteredTool :=
  r.tools

def size (r : ToolRegistry) : Nat :=
  r.tools.length

def get (r : ToolRegistry) (toolId : String) : Option RegisteredTool :=
  mapGet r.tools toolId

/-- The `RegisteredTool` record the accepted branch of `register` builds. -/
def mkLiveTool (now : Nat) (tabId : Int) (url : String) (origin : String)
    (discovered : DiscoveredTool) (authState : AuthState) : RegisteredTool :=
  { id := origin ++ "::" ++ discovered.name
    name := discovered.name
    description := discovered.description
    inputSchema := discovered.inputSchema
    source := discovered.source
    origin := origin
    tabId := tabId
    url := url
    discoveredAt := now
    lastVerified := now
    authState := authState
    selector := discovered.selector }

/-- `ToolRegistry.register`.  Returns the `RegisteredTool | null` result,
the new state, and the invoked listener ids. -/
def register (r : ToolRegistry) (now : Nat) (tabId : Int) (url : String) (origin : String)
    (discovered : DiscoveredTool) (authState : AuthState) :
    Option RegisteredTool × ToolRegistry × List Nat :=
  if r.tools.length ≥ MAX_TOTAL_TOOLS then
    (none, r, [])
  else if (getByOrigin r origin).length ≥ MAX_TOOLS_PER_ORIGIN then
    (none, r, [])
  else
    let tool := mkLiveTool now tabId url origin discovered authState
    (some tool,
      { r with
        tools := mapSet r.tools tool
        pendingRemoval := r.pendingRemoval.filter
          (fun s => s != origin ++ "::" ++ discovered.name) },
      notifyEvents r)

/-- The `RegisteredTool` record `registerCurated` builds for one curated
definition. -/
def curatedEntry (now : Nat) (origin : String) (c : CuratedToolDef) : RegisteredTool :=
  { id := origin ++ "::" ++ c.name
    name := c.name
    description := c.description
    inputSchema := c.inputSchema
    source := ToolSource.curatedBundle
    origin := origin
    tabId := -1
    url := origin
    discoveredAt := now
    lastVerified := now
    authState := AuthState.unknown
    selector := some c.selector }

/-- The `for (const tool of tools)` loop of `registerCurated`: skip ids
already present (live discovery wins), insert the rest.  No capacity
check appears in the source. -/
def curatedInsert (tools : List RegisteredTool) (now : Nat) (origin : String) :
    List CuratedToolDef → List RegisteredTool
  | [] => tools
  | c :: rest =>
    if tools.any (fun u => u.id == origin ++ "::" ++ c.name) then
      curatedInsert tools now origin rest
    else
      curatedInsert (tools ++ [curatedEntry now origin c]) now origin rest

/-- `ToolRegistry.registerCurated`.  `notifyListeners` runs
unconditionally at the end. -/
def registerCurated (r : ToolRegistry) (now : Nat) (origin : String)
    (tools : List CuratedToolDef) : ToolRegistry × List Nat :=
  ({ r with tools := curatedInsert r.tools now origin tools }, notifyEvents r)

/-- The per-entry update of `bindCuratedToTab`: curated entries at the
origin get the tab binding, the auth state and a fresh verification time. -/
def bindCuratedFn (now : Nat) (origin : String) (tabId : Int) (authState : AuthState)
    (t : RegisteredTool) : RegisteredTool :=
  if t.origin == origin && decide (t.source = ToolSource.curatedBundle) then
    { t with tabId := tabId, authState := authState, lastVerified := now }
  else t

/-- `ToolRegistry.bindCuratedToTab`.  Mutates matching entries in place;
the source contains no `notifyListeners` call, so no listener runs. -/
def bindCuratedToTab (r : ToolRegistry) (now : Nat) (origin : String) (tabId : Int)
    (authState : AuthState) : ToolRegistry × List Nat :=
  ({ r with tools := r.tools.map (bindCuratedFn now origin tabId authState) }, [])

/-- `ToolRegistry.unregister`: notifies only when something was deleted. -/
def unregister (r : ToolRegistry) (toolId : String) : ToolRegistry × List Nat :=
  if r.tools.any (fun u => u.id == toolId) then
    ({ r with tools := r.tools.filter (fun u => u.id != toolId) }, notifyEvents r)
  else
    (r, [])

/-- `ToolRegistry.onTabRemoved`: every tool of the tab gets a pending
grace-period removal timer; the catalog itself is untouched. -/
def onTabRemoved (r : ToolRegistry) (tabId : Int) : ToolRegistry :=
  let pend := (getByTab r tabId).foldl
    (fun acc t => if acc.contains t.id then acc else acc ++ [t.id]) r.pendingRemoval
  { r with pendingRemoval := pend }

/-- One grace-period timer elapsing for `toolId`: the `setTimeout`
callback of `onTabRemoved` runs `unregister` and clears the pending entry.
A cancelled timer (id no longer pending) never fires. -/
def fireRemoval (r : ToolRegistry) (toolId : String) : ToolRegistry × List Nat :=
  if r.pendingRemoval.contains toolId then
    let (r', ev) := unregister r toolId
    ({ r' with pendingRemoval := r'.pendingRemoval.filter (fun s => s != toolId) }, ev)
  else
    (r, [])

/-- Sequential `unregister` calls, accumulating the fired listener ids. -/
def unregisterMany (r : ToolRegistry) : List String → ToolRegistry × List Nat
  | [] => (r, [])
  | id :: rest =>
    let (r', ev) := unregister r id
    let (r'', ev') := unregisterMany r' rest
    (r'', ev ++ ev')

/-- `ToolRegistry.onTabUpdated`.  `new URL(newUrl).origin` is passed as
its parse result; a parse failure returns unchanged.  Tools of the tab
whose origin differs from the new origin are unregistered immediately. -/
def onTabUpdated (r : ToolRegistry) (tabId : Int) (newOrigin? : Option String) :
    ToolRegistry × List Nat :=
  match newOrigin? with
  | none => (r, [])
  | some newOrigin =>
    unregisterMany r
      (((getByTab r tabId).filter (fun t => t.origin != newOrigin)).map (fun t => t.id))

/-- The per-entry update of `updateAuthState`. -/
def updateAuthFn (origin : String) (authState : AuthState) (t : RegisteredTool) :
    RegisteredTool :=
  if t.origin == origin && decide (t.authState ≠ authState) then
    { t with authState := authState }
  else t

/-- `ToolRegistry.updateAuthState`: notifies only if some entry changed. -/
def updateAuthState (r : ToolRegistry) (origin : String) (authState : AuthState) :
    ToolRegistry × List Nat :=
  let changed := r.tools.any
    (fun t => t.origin == origin && decide (t.authState ≠ authState))
  ({ r with tools := r.tools.map (updateAuthFn origin authState) },
    if changed then notifyEvents r else [])

/-- `ToolRegistry.onChange`: appends the listener. -/
def onChange (r : ToolRegistry) (l : Listener) : ToolRegistry :=
  { r with listeners := r.listeners ++ [l] }

/-- `ToolRegistry.serialize`: the persisted snapshot is the array of
catalog values. -/
def serialize (r : ToolRegistry) : List RegisteredTool :=
  r.tools

/-- The merge loop of `restore`: only ids not already present are added;
returns the merged list and the `restored` counter. -/
def restoreMerge (tools : List RegisteredTool) :
    List RegisteredTool → List RegisteredTool × Nat
  | [] => (tools, 0)
  | t :: rest =>
    if tools.any (fun u => u.id == t.id) then
      restoreMerge tools rest
    else
      let (ts, n) := restoreMerge (tools ++ [t]) rest
      (ts, n + 1)

/-- `ToolRegistry.restore`: notifies only if `restored > 0`. -/
def restore (r : ToolRegistry) (snapshot : List RegisteredTool) : ToolRegistry × List Nat :=
  let (ts, n) := restoreMerge r.tools snapshot
  ({ r with tools := ts }, if n > 0 then notifyEvents r else [])

end ToolRegistry

/-! ## Protocol naming (`toMCPName` of tool-registry.ts)

The slug pipeline `origin.replace(/^https?:\/\//, '').replace(/[^a-z0-9]/gi,
'_').replace(/_+/g, '_').replace(/^_|_$/g, '').toLowerCase()` is embedded
stage by stage over `List Char`. -/

/-- `replace(/^https?:\/\//, '')`: strip one leading `http://`/`https://`. -/
def stripScheme (s : List Char) : List Char :=
  if "https://".data.isPrefixOf s then s.drop 8
  else if "http://".data.isPrefixOf s then s.drop 7
  else s

/-- The character class `[a-z0-9]` with the `i` flag: ASCII letters and digits. -/
def isSlugKeep (c : Char) : Bool :=
  ('a' ≤ c && c ≤ 'z') || ('A' ≤ c && c ≤ 'Z') || ('0' ≤ c && c ≤ '9')

/-- `replace(/[^a-z0-9]/gi, '_')`. -/
def underscoreNonAlnum (s : List Char) : List Char :=
  s.map (fun c => if isSlugKeep c then c else '_')

/-- `replace(/_+/g, '_')`: collapse every run of underscores to one. -/
def collapseUnderscores : List Char → List Char
  | [] => []
  | [c] => [c]
  | a :: b :: rest =>
    if a = '_' ∧ b = '_' then collapseUnderscores (b :: rest)
    else a :: collapseUnderscores (b :: rest)

/-- The `^_` half of `replace(/^_|_$/g, '')`: drop one leading underscore. -/
def dropLeadUnderscore : List Char → List Char
  | [] => []
  | c :: rest => if c = '_' then rest else c :: rest

/-- The `_$` half of `replace(/^_|_$/g, '')`: drop one trailing underscore. -/
def dropTrailUnderscore : List Char → List Char
  | [] => []
  | [c] => if c = '_' then [] else [c]
  | a :: b :: rest => a :: dropTrailUnderscore (b :: rest)

/-- The full origin slug of `toMCPName`. -/
def originSlug (origin : String) : String :=
  ⟨(dropTrailUnderscore (dropLeadUnderscore
      (collapseUnderscores (underscoreNonAlnum (stripScheme origin.data))))).map Char.toLower⟩

/-- No two adjacent underscores. -/
def noDoubleU : List Char → Prop
  | a :: b :: rest => ¬(a = '_' ∧ b = '_') ∧ noDoubleU (b :: rest)
  | _ => True

/-- The last character is an underscore. -/
def endsInU : List Char → Prop
  | [] => False
  | [c] => c = '_'
  | _ :: b :: rest => endsInU (b :: rest)

/-- `toMCPName`: `` `${slug}__${tool.name}` ``. -/
def toMCPName (t : RegisteredTool) : String :=
  originSlug t.origin ++ "__" ++ t.name

namespace ToolRegistry

/-- `getForMCP`: curated entries still at the unbound sentinel tab are
filtered out, the rest are renamed and re-described. -/
def getForMCP (r : ToolRegistry) : List MCPToolDefinition :=
  ((getAll r).filter (fun t =>
      !(decide (t.source = ToolSource.curatedBundle) && t.tabId == (-1 : Int)))).map
    (fun t =>
      { name := toMCPName t
        description := "[" ++ t.origin ++ "] " ++ t.description
        inputSchema := t.inputSchema })

/-- `resolveFromMCPName`: first catalog entry (in insertion order) whose
protocol name matches; no unbound-curated filter is applied here. -/
def resolveFromMCPName (r : ToolRegistry) (mcpName : String) : Option RegisteredTool :=
  r.tools.find? (fun t => toMCPName t == mcpName)

end ToolRegistry

/-! ## MCP server (mcp-server.ts) -/

/-- The `EXECUTE_TOOL` message sent to the owning tab's content script. -/
structure ExecuteToolMessage where
  toolName : String
  arguments : List (String × String)
  source : ToolSource
  selector : Option String
  requestId : String

/-- What the race between `chrome.tabs.sendMessage` and the timeout
promise produced: the tab answered with a payload, the send rejected with
an error message, or the timeout fired first.  These are the only three
terminal outcomes of a dispatch. -/
inductive DispatchOutcome where
  | success (payload : String)
  | failure (errMsg : String)
  | timeout

structure CallOutcome where
  result : MCPToolCallResult
  registry : ToolRegistry
  sentMessage : Option ExecuteToolMessage

/-- Is `needle` a contiguous substring of `hay` (JS `String.includes`)? -/
def hasSubstring (needle : List Char) : List Char → Bool
  | [] => needle.isEmpty
  | c :: rest => needle.isPrefixOf (c :: rest) || hasSubstring needle rest

/-- The error-message test of the `catch` block: does the failure look
like the target tab being gone? -/
def isTargetGoneMsg (errMsg : String) : Bool :=
  hasSubstring "Could not establish connection".data errMsg.data ||
    hasSubstring "No tab with id".data errMsg.data

def authRequiredText (origin : String) : String :=
  "Authentication required for " ++ origin ++ ". Please log in to the site and try again."

def noTabText (name : String) (origin : String) : String :=
  "Tool \"" ++ name ++ "\" is available but no browser tab is open for " ++ origin ++
    ". Please open the site in a tab first."

def notFoundText (mcpName : String) : String :=
  "Tool not found: " ++ mcpName

/-- The `catch` block of `executeToolCall`: unregister on a
target-gone-shaped message, then report an error result. -/
def dispatchCatch (r : ToolRegistry) (tool : RegisteredTool) (msg : ExecuteToolMessage)
    (errMsg : String) : CallOutcome :=
  let r' := if isTargetGoneMsg errMsg then (ToolRegistry.unregister r tool.id).1 else r
  { result := { content := [{ type := "text", text := "Execution failed: " ++ errMsg }]
                isError := some true }
    registry := r'
    sentMessage := some msg }

/-- `executeToolCall`.  `requestId` (`Date.now()` plus random suffix) is
passed in; the payload of a successful dispatch is carried as the
already-stringified text. -/
def executeToolCall (r : ToolRegistry) (mcpToolName : String)
    (args : List (String × String)) (requestId : String) (dispatch : DispatchOutcome) :
    CallOutcome :=
  match ToolRegistry.resolveFromMCPName r mcpToolName with
  | none =>
    { result := { content := [{ type := "text", text := notFoundText mcpToolName }]
                  isError := some true }
      registry := r
      sentMessage := none }
  | some tool =>
    if tool.authState = AuthState.loginRequired then
      { result := { content := [{ type := "text", text := authRequiredText tool.origin }]
                    isError := some true }
        registry := r
        sentMessage := none }
    else if tool.tabId = -1 then
      { result := { content := [{ type := "text", text := noTabText tool.name tool.origin }]
                    isError := some true }
        registry := r
        sentMessage := none }
    else
      let msg : ExecuteToolMessage :=
        { toolName := tool.name
          arguments := args
          source := tool.source
          selector := tool.selector
          requestId := requestId }
      match dispatch with
      | DispatchOutcome.success payload =>
        { result := { content := [{ type := "text", text := payload }], isError := none }
          registry := r
          sentMessage := some msg }
      | DispatchOutcome.failure errMsg => dispatchCatch r tool msg errMsg
      | DispatchOutcome.timeout => dispatchCatch r tool msg "Tool execution timed out"

structure MCPError where
  code : Int
  message : String

inductive MCPResultPayload where
  | initInfo (protocolVersion : String) (toolsListChanged : Bool)
      (serverName serverVersion : String)
  | toolsList (tools : List MCPToolDefinition)
  | callResult (r : MCPToolCallResult)
  | emptyResult

structure MCPResponseModel where
  id : Nat
  result : Option MCPResultPayload
  error : Option MCPError

/-- `handleMCPRequest`: method dispatch of the protocol server.  The
connected-client bookkeeping of `initialize` (diagnostic only) is not
modelled; `params.name`/`params.arguments` are passed explicitly. -/
def handleMCPRequest (reg : ToolRegistry) (id : Nat) (method : String) (callName : String)
    (args : List (String × String)) (requestId : String) (dispatch : DispatchOutcome) :
    MCPResponseModel × ToolRegistry × Option ExecuteToolMessage :=
  if method = "initialize" then
    ({ id := id
       result := some (MCPResultPayload.initInfo "2024-11-05" true GATEWAY_NAME GATEWAY_VERSION)
       error := none }, reg, none)
  else if method = "tools/list" then
    ({ id := id, result := some (MCPResultPayload.toolsList (ToolRegistry.getForMCP reg))
       error := none }, reg, none)
  else if method = "tools/call" then
    let c := executeToolCall reg callName args requestId dispatch
    ({ id := id, result := some (MCPResultPayload.callResult c.result), error := none },
      c.registry, c.sentMessage)
  else if method = "ping" then
    ({ id := id, result := some MCPResultPayload.emptyResult, error := none }, reg, none)
  else if method = "notifications/initialized" then
    ({ id := id, result := some MCPResultPayload.emptyResult, error := none }, reg, none)
  else
    ({ id := id, result := none
       error := some { code := -32601, message := "Method not found: " ++ method } }, reg, none)

/-! ## Session coordinator (session-manager.ts) -/

/-- Sequential `register` calls of a batch (results discarded, as in the
`for` loop of the `PAGE_TOOLS` handler). -/
def registerMany (r : ToolRegistry) (now : Nat) (tabId : Int) (url origin : String)
    (authState : AuthState) : List DiscoveredTool → ToolRegistry × List Nat
  | [] => (r, [])
  | d :: rest =>
    let (_, r', ev) := ToolRegistry.register r now tabId url origin d authState
    let (r'', ev') := registerMany r' now tabId url origin authState rest
    (r'', ev ++ ev')

/-- The non-curated branch of the `PAGE_TOOLS` handler: symmetric
difference against the tools this tab currently owns at this origin —
unregister the ones absent from the batch, then register the whole batch. -/
def handlePageToolsBatch (r : ToolRegistry) (now : Nat) (tabId : Int) (url origin : String)
    (batch : List DiscoveredTool) (authState : AuthState) : ToolRegistry × List Nat :=
  let existing := ToolRegistry.getByTab r tabId
  let newNames := batch.map (fun d => d.name)
  let victims := existing.filter
    (fun t => t.origin == origin && !(newNames.contains t.name))
  let (r1, ev1) := ToolRegistry.unregisterMany r (victims.map (fun t => t.id))
  let (r2, ev2) := registerMany r1 now tabId url origin authState batch
  (r2, ev1 ++ ev2)

/-! ## Lemmas about the slug pipeline -/

theorem charOfNat_toNat (n : Nat) (h : n.isValidChar) : (Char.ofNat n).toNat = n := by
  simp [Char.ofNat, h, Char.ofNatAux, Char.toNat]
  rfl

/-- Lowercasing creates no underscore and destroys none. -/
theorem toLower_underscore_iff (c : Char) : Char.toLower c = '_' ↔ c = '_' := by
  constructor
  · intro h
    simp only [Char.toLower] at h
    by_cases hc : c.toNat ≥ 65 ∧ c.toNat ≤ 90
    · rw [if_pos hc] at h
      have hv : (c.toNat + 32).isValidChar := Or.inl (by omega)
      have h2 := congrArg Char.toNat h
      rw [charOfNat_toNat _ hv] at h2
      have h95 : ('_' : Char).toNat = 95 := by decide
      omega
    · rwa [if_neg hc] at h
  · intro h; subst h; decide

@[simp]
theorem noDoubleU_nil : noDoubleU [] := trivial

@[simp]
theorem noDoubleU_single (c : Char) : noDoubleU [c] := trivial

theorem noDoubleU_cons_cons {a b : Char} {l : List Char} :
    noDoubleU (a :: b :: l) ↔ ¬(a = '_' ∧ b = '_') ∧ noDoubleU (b :: l) := Iff.rfl

theorem noDoubleU_of_cons {a : Char} {l : List Char} (h : noDoubleU (a :: l)) :
    noDoubleU l := by
  cases l with
  | nil => trivial
  | cons b r => exact h.2

theorem not_endsInU_of_cons {a : Char} {l : List Char} (h : ¬ endsInU (a :: l)) :
    ¬ endsInU l := by
  cases l with
  | nil => exact fun hf => hf.elim
  | cons b r => exact h

theorem collapse_head? (rest : List Char) :
    ∀ b, (collapseUnderscores (b :: rest)).head? = some b := by
  induction rest with
  | nil => intro b; simp [collapseUnderscores]
  | cons c r ih =>
    intro b
    by_cases h : b = '_' ∧ c = '_'
    · simp only [collapseUnderscores, if_pos h]
      rw [ih c, h.1, h.2]
    · simp [collapseUnderscores, if_neg h]

theorem collapse_noDoubleU (l : List Char) : noDoubleU (collapseUnderscores l) := by
  induction l with
  | nil => simp [collapseUnderscores]
  | cons a t ih =>
    cases t with
    | nil => simp [collapseUnderscores]
    | cons b r =>
      by_cases h : a = '_' ∧ b = '_'
      · simpa only [collapseUnderscores, if_pos h] using ih
      · simp only [collapseUnderscores, if_neg h]
        have hd := collapse_head? r b
        cases hX : collapseUnderscores (b :: r) with
        | nil => simp
        | cons x xs =>
          rw [hX] at hd ih
          have hx : x = b := by simpa using hd
          exact noDoubleU_cons_cons.mpr ⟨by rw [hx]; exact h, ih⟩

theorem dropLead_noDoubleU {l : List Char} (h : noDoubleU l) :
    noDoubleU (dropLeadUnderscore l) := by
  cases l with
  | nil => trivial
  | cons c rest =>
    by_cases hc : c = '_'
    · simpa only [dropLeadUnderscore, if_pos hc] using noDoubleU_of_cons h
    · simpa only [dropLeadUnderscore, if_neg hc] using h

theorem dropTrail_shape (b : Char) (rest : List Char) :
    dropTrailUnderscore (b :: rest) = [] ∨
      ∃ ys, dropTrailUnderscore (b :: rest) = b :: ys := by
  cases rest with
  | nil =>
    by_cases hb : b = '_'
    · exact Or.inl (by simp [dropTrailUnderscore, hb])
    · exact Or.inr ⟨[], by simp [dropTrailUnderscore, hb]⟩
  | cons c r => exact Or.inr ⟨dropTrailUnderscore (c :: r), rfl⟩

theorem dropTrail_noDoubleU {l : List Char} (h : noDoubleU l) :
    noDoubleU (dropTrailUnderscore l) := by
  induction l with
  | nil => trivial
  | cons a t ih =>
    cases t with
    | nil =>
      by_cases ha : a = '_' <;> simp [dropTrailUnderscore, ha]
    | cons b r =>
      simp only [dropTrailUnderscore]
      rcases dropTrail_shape b r with hX | ⟨ys, hX⟩
      · rw [hX]; simp
      · rw [hX]
        refine noDoubleU_cons_cons.mpr ⟨h.1, ?_⟩
        rw [← hX]
        exact ih h.2

theorem dropTrail_not_endsInU {l : List Char} (h : noDoubleU l) :
    ¬ endsInU (dropTrailUnderscore l) := by
  induction l with
  | nil => exact fun hf => hf.elim
  | cons a t ih =>
    cases t with
    | nil =>
      by_cases ha : a = '_' <;> simp [dropTrailUnderscore, ha, endsInU]
    | cons b r =>
      simp only [dropTrailUnderscore]
      rcases dropTrail_shape b r with hX | ⟨ys, hX⟩
      · rw [hX]
        have hb : b = '_' ∧ r = [] := by
          cases r with
          | nil =>
            by_cases hb : b = '_'
            · exact ⟨hb, rfl⟩
            · simp [dropTrailUnderscore, hb] at hX
          | cons c r' =>
            simp only [dropTrailUnderscore] at hX
            rcases dropTrail_shape c r' with hY | ⟨zs, hY⟩ <;> simp [hY] at hX
        have ha : a ≠ '_' := fun haeq => h.1 ⟨haeq, hb.1⟩
        simpa [endsInU] using ha
      · rw [hX]
        intro hend
        apply ih h.2
        rw [hX]
        cases ys with
        | nil => exact hend
        | cons y ys' => exact hend

theorem mapLower_noDoubleU {l : List Char} (h : noDoubleU l) :
    noDoubleU (l.map Char.toLower) := by
  induction l with
  | nil => trivial
  | cons a t ih =>
    cases t with
    | nil => trivial
    | cons b r =>
      refine noDoubleU_cons_cons.mpr ⟨?_, ih h.2⟩
      intro ⟨ha, hb⟩
      exact h.1 ⟨(toLower_underscore_iff a).mp ha, (toLower_underscore_iff b).mp hb⟩

theorem mapLower_not_endsInU {l : List Char} (h : ¬ endsInU l) :
    ¬ endsInU (l.map Char.toLower) := by
  induction l with
  | nil => exact fun hf => hf.elim
  | cons a t ih =>
    cases t with
    | nil =>
      intro hf
      exact h ((toLower_underscore_iff a).mp hf)
    | cons b r => exact ih h

theorem originSlug_noDoubleU (o : String) : noDoubleU (originSlug o).data :=
  mapLower_noDoubleU (dropTrail_noDoubleU
    (dropLead_noDoubleU (collapse_noDoubleU (underscoreNonAlnum (stripScheme o.data)))))

theorem originSlug_not_endsInU (o : String) : ¬ endsInU (originSlug o).data :=
  mapLower_not_endsInU (dropTrail_not_endsInU
    (dropLead_noDoubleU (collapse_noDoubleU (underscoreNonAlnum (stripScheme o.data)))))

/-- A string with no double underscore and no trailing underscore,
followed by the `__` separator, can be recovered from the concatenation:
the separator position is unambiguous. -/
theorem sepConcat_inj :
    ∀ s1 : List Char, noDoubleU s1 → ¬ endsInU s1 →
    ∀ s2 : List Char, noDoubleU s2 → ¬ endsInU s2 →
    ∀ n1 n2 : List Char,
      s1 ++ '_' :: '_' :: n1 = s2 ++ '_' :: '_' :: n2 → s1 = s2 ∧ n1 = n2 := by
  intro s1
  induction s1 with
  | nil =>
    intro _ _ s2 hnd2 hend2 n1 n2 h
    cases s2 with
    | nil => simpa using h
    | cons c s2' =>
      simp only [List.nil_append, List.cons_append, List.cons.injEq] at h
      obtain ⟨hc, h⟩ := h
      cases s2' with
      | nil => exact absurd (show endsInU [c] from hc.symm) hend2
      | cons d s2'' =>
        simp only [List.cons_append, List.cons.injEq] at h
        exact absurd ⟨hc.symm, h.1.symm⟩ hnd2.1
  | cons a s1' ih =>
    intro hnd1 hend1 s2 hnd2 hend2 n1 n2 h
    cases s2 with
    | nil =>
      simp only [List.cons_append, List.nil_append, List.cons.injEq] at h
      obtain ⟨ha, h⟩ := h
      cases s1' with
      | nil => exact absurd (show endsInU [a] from ha) hend1
      | cons e s1'' =>
        simp only [List.cons_append, List.cons.injEq] at h
        exact absurd ⟨ha, h.1⟩ hnd1.1
    | cons b s2' =>
      simp only [List.cons_append, List.cons.injEq] at h
      obtain ⟨hab, h⟩ := h
      obtain ⟨hs, hn⟩ := ih (noDoubleU_of_cons hnd1) (not_endsInU_of_cons hend1) s2'
        (noDoubleU_of_cons hnd2) (not_endsInU_of_cons hend2) n1 n2 h
      exact ⟨by rw [hab, hs], hn⟩

/-- Two registered tools carry the same protocol name iff their origin
slugs and their own names agree. -/
theorem toMCPName_eq_iff (t u : RegisteredTool) :
    toMCPName t = toMCPName u ↔
      originSlug t.origin = originSlug u.origin ∧ t.name = u.name := by
  constructor
  · intro h
    have hd := congrArg String.data h
    simp only [toMCPName, String.data_append] at hd
    have hd' : (originSlug t.origin).data ++ '_' :: '_' :: t.name.data =
        (originSlug u.origin).data ++ '_' :: '_' :: u.name.data := by
      simpa using hd
    obtain ⟨h1, h2⟩ := sepConcat_inj _ (originSlug_noDoubleU t.origin)
      (originSlug_not_endsInU t.origin) _ (originSlug_noDoubleU u.origin)
      (originSlug_not_endsInU u.origin) _ _ hd'
    exact ⟨String.ext h1, String.ext h2⟩
  · intro ⟨h1, h2⟩
    simp [toMCPName, h1, h2]

/-! ## Lemmas about the registry operations -/

namespace ToolRegistry

/-- Catalog keys are unique — the `Map` invariant. -/
def IdsNodup (r : ToolRegistry) : Prop :=
  (r.tools.map (fun t => t.id)).Nodup

/-- An entry's identifier is `origin::name` of its own fields. -/
def IdOk (t : RegisteredTool) : Prop :=
  t.id = t.origin ++ "::" ++ t.name

def IdInv (r : ToolRegistry) : Prop :=
  ∀ t ∈ r.tools, IdOk t

theorem mem_mapSet_elim {l : List RegisteredTool} {t u : RegisteredTool}
    (h : u ∈ mapSet l t) : u = t ∨ u ∈ l := by
  unfold mapSet at h
  split at h
  · rcases List.mem_map.mp h with ⟨v, hv, hfv⟩
    by_cases hid : v.id == t.id
    · left; rw [← hfv, if_pos hid]
    · right; rw [← hfv, if_neg hid]; exact hv
  · rcases List.mem_append.mp h with hl | hr
    · exact Or.inr hl
    · exact Or.inl (List.mem_singleton.mp hr)

theorem list_map_id_of {α : Type} {l : List α} {f : α → α} (h : ∀ a ∈ l, f a = a) :
    l.map f = l := by
  induction l with
  | nil => rfl
  | cons a t ih =>
    rw [List.map_cons, h a (List.mem_cons_self a t),
      ih (fun b hb => h b (List.mem_cons_of_mem _ hb))]

theorem mem_mapSet_of_ne {l : List RegisteredTool} {t u : RegisteredTool}
    (hu : u ∈ l) (hne : u.id ≠ t.id) : u ∈ mapSet l t := by
  unfold mapSet
  split
  · exact List.mem_map.mpr ⟨u, hu, by simp [hne]⟩
  · exact List.mem_append_left _ hu

theorem self_mem_mapSet (l : List RegisteredTool) (t : RegisteredTool) :
    t ∈ mapSet l t := by
  unfold mapSet
  split
  · next h =>
    rcases List.any_eq_true.mp h with ⟨v, hv, hvid⟩
    exact List.mem_map.mpr ⟨v, hv, by simp [hvid]⟩
  · exact List.mem_append_right _ (List.mem_singleton.mpr rfl)

theorem length_mapSet_le (l : List RegisteredTool) (t : RegisteredTool) :
    (mapSet l t).length ≤ l.length + 1 := by
  unfold mapSet
  split
  · simp
  · simp

theorem ids_mapSet_of_present {l : List RegisteredTool} {t : RegisteredTool}
    (h : l.any (fun u => u.id == t.id)) :
    (mapSet l t).map (fun u => u.id) = l.map (fun u => u.id) := by
  unfold mapSet
  rw [if_pos h]
  rw [List.map_map]
  refine List.map_congr_left ?_
  intro v _
  by_cases hid : v.id == t.id
  · simp only [Function.comp_apply, if_pos hid]
    exact (beq_iff_eq.mp hid).symm
  · simp only [Function.comp_apply, if_neg hid]

theorem idsNodup_mapSet {l : List RegisteredTool} (t : RegisteredTool)
    (h : (l.map (fun u => u.id)).Nodup) : ((mapSet l t).map (fun u => u.id)).Nodup := by
  by_cases hp : l.any (fun u => u.id == t.id)
  · rw [ids_mapSet_of_present hp]; exact h
  · unfold mapSet
    rw [if_neg hp]
    rw [List.map_append]
    rw [List.nodup_append]
    refine ⟨h, List.nodup_singleton _, ?_⟩
    intro x hx hx'
    rcases List.mem_map.mp hx with ⟨v, hv, hvid⟩
    have : x = t.id := by simpa using hx'
    rw [List.any_eq_true] at hp
    exact hp ⟨v, hv, by rw [beq_iff_eq, hvid, this]⟩

theorem countP_mapSet_le {l : List RegisteredTool} (t : RegisteredTool)
    (p : RegisteredTool → Bool) (h : (l.map (fun u => u.id)).Nodup) :
    (mapSet l t).countP p ≤ l.countP p + (if p t then 1 else 0) := by
  by_cases hp : l.any (fun u => u.id == t.id)
  · unfold mapSet
    rw [if_pos hp]
    clear hp
    induction l with
    | nil => simp
    | cons u rest ih =>
      simp only [List.map_cons, List.nodup_cons] at h
      by_cases hid : (u.id == t.id) = true
      · have hrest : ∀ v ∈ rest, ¬(v.id == t.id) = true := by
          intro v hv hveq
          exact h.1 (List.mem_map.mpr ⟨v, hv, by
            rw [beq_iff_eq] at hid hveq
            rw [hveq, hid]⟩)
        have hmap : rest.map (fun v => if v.id == t.id then t else v) = rest :=
          list_map_id_of (fun v hv => by simp [hrest v hv])
        rw [List.map_cons, hmap]
        simp only [hid, if_true, List.countP_cons]
        omega
      · rw [Bool.not_eq_true] at hid
        rw [List.map_cons]
        simp only [hid, Bool.false_eq_true, if_false, List.countP_cons]
        have := ih h.2
        omega
  · unfold mapSet
    rw [if_neg hp]
    rw [List.countP_append]
    simp [List.countP_cons]

theorem find?_replaceById_self :
    ∀ (l : List RegisteredTool) (t : RegisteredTool),
    (l.any fun u => u.id == t.id) = true →
    (l.map fun u => if u.id == t.id then t else u).find? (fun u => u.id == t.id) =
      some t := by
  intro l t h
  induction l with
  | nil => simp at h
  | cons u rest ih =>
    simp only [List.any_cons, Bool.or_eq_true] at h
    by_cases hid : (u.id == t.id) = true
    · rw [List.map_cons]
      simp only [hid, if_true]
      exact List.find?_cons_of_pos _ (by simp)
    · rcases h with h | h
      · exact absurd h hid
      · rw [Bool.not_eq_true] at hid
        rw [List.map_cons]
        simp only [hid, Bool.false_eq_true, if_false]
        rw [List.find?_cons_of_neg _ (by simp [hid])]
        exact ih h

theorem mapGet_mapSet_self (l : List RegisteredTool) (t : RegisteredTool) :
    mapGet (mapSet l t) t.id = some t := by
  unfold mapSet mapGet
  split
  · next h => exact find?_replaceById_self l t h
  · next h =>
    rw [List.find?_append]
    have hnone : l.find? (fun u => u.id == t.id) = none := by
      rw [List.find?_eq_none]
      intro u hu hc
      exact h (List.any_eq_true.mpr ⟨u, hu, hc⟩)
    rw [hnone]
    simp [List.find?_cons]

theorem mapGet_append_left {l l' : List RegisteredTool} {id : String}
    (h : (mapGet l id).isSome) : mapGet (l ++ l') id = mapGet l id := by
  unfold mapGet at h ⊢
  rw [List.find?_append]
  cases hx : l.find? (fun u => u.id == id) with
  | none => rw [hx] at h; simp at h
  | some v => simp

theorem unregister_tools_sublist (r : ToolRegistry) (id : String) :
    ((unregister r id).1).tools.Sublist r.tools := by
  unfold unregister
  split
  · exact List.filter_sublist r.tools
  · exact List.Sublist.refl _

theorem unregister_pending (r : ToolRegistry) (id : String) :
    ((unregister r id).1).pendingRemoval = r.pendingRemoval := by
  unfold unregister
  split <;> rfl

theorem unregister_listeners (r : ToolRegistry) (id : String) :
    ((unregister r id).1).listeners = r.listeners := by
  unfold unregister
  split <;> rfl

theorem mem_unregister_of_ne {r : ToolRegistry} {t : RegisteredTool} {id : String}
    (ht : t ∈ r.tools) (hne : t.id ≠ id) : t ∈ ((unregister r id).1).tools := by
  unfold unregister
  split
  · exact List.mem_filter.mpr ⟨ht, by simp [hne]⟩
  · exact ht

theorem not_mem_unregister_self {r : ToolRegistry} {id : String} :
    ∀ u ∈ ((unregister r id).1).tools, u.id ≠ id := by
  intro u hu
  unfold unregister at hu
  by_cases h : (r.tools.any fun v => v.id == id) = true
  · rw [if_pos h] at hu
    have := (List.mem_filter.mp hu).2
    simpa using this
  · rw [if_neg h] at hu
    intro hc
    exact h (List.any_eq_true.mpr ⟨u, hu, by simp [hc]⟩)

theorem unregisterMany_tools_sublist :
    ∀ (ids : List String) (r : ToolRegistry),
    ((unregisterMany r ids).1).tools.Sublist r.tools := by
  intro ids
  induction ids with
  | nil => intro r; exact List.Sublist.refl _
  | cons id rest ih =>
    intro r
    show ((unregisterMany (unregister r id).1 rest).1).tools.Sublist r.tools
    exact (ih (unregister r id).1).trans (unregister_tools_sublist r id)

theorem mem_unregisterMany_of_ne :
    ∀ (ids : List String) (r : ToolRegistry) (t : RegisteredTool),
    t ∈ r.tools → (∀ id ∈ ids, t.id ≠ id) → t ∈ ((unregisterMany r ids).1).tools := by
  intro ids
  induction ids with
  | nil => intro r t ht _; exact ht
  | cons id rest ih =>
    intro r t ht hne
    exact ih _ t (mem_unregister_of_ne ht (hne id (List.mem_cons_self _ _)))
      (fun i hi => hne i (List.mem_cons_of_mem _ hi))

theorem curatedInsert_append (now : Nat) (origin : String) :
    ∀ (cs : List CuratedToolDef) (tools : List RegisteredTool),
    ∃ added, curatedInsert tools now origin cs = tools ++ added ∧
      ∀ a ∈ added, ∃ c ∈ cs, a = curatedEntry now origin c := by
  intro cs
  induction cs with
  | nil => intro tools; exact ⟨[], by simp [curatedInsert], by simp⟩
  | cons c rest ih =>
    intro tools
    unfold curatedInsert
    split
    · obtain ⟨added, h1, h2⟩ := ih tools
      exact ⟨added, h1, fun a ha =>
        (h2 a ha).elim (fun d hd => ⟨d, List.mem_cons_of_mem _ hd.1, hd.2⟩)⟩
    · obtain ⟨added, h1, h2⟩ := ih (tools ++ [curatedEntry now origin c])
      refine ⟨curatedEntry now origin c :: added, by rw [h1]; simp, ?_⟩
      intro a ha
      rcases List.mem_cons.mp ha with ha | ha
      · exact ⟨c, List.mem_cons_self _ _, ha⟩
      · exact (h2 a ha).elim (fun d hd => ⟨d, List.mem_cons_of_mem _ hd.1, hd.2⟩)

theorem curatedInsert_mapGet (now : Nat) (origin : String)
    (cs : List CuratedToolDef) (tools : List RegisteredTool) (id : String)
    (h : (mapGet tools id).isSome) :
    mapGet (curatedInsert tools now origin cs) id = mapGet tools id := by
  obtain ⟨added, h1, _⟩ := curatedInsert_append now origin cs tools
  rw [h1]
  exact mapGet_append_left h

theorem restoreMerge_append :
    ∀ (snap : List RegisteredTool) (tools : List RegisteredTool),
    ∃ added, (restoreMerge tools snap).1 = tools ++ added ∧
      ∀ a ∈ added, a ∈ snap := by
  intro snap
  induction snap with
  | nil => intro tools; exact ⟨[], by simp [restoreMerge], by simp⟩
  | cons t rest ih =>
    intro tools
    unfold restoreMerge
    split
    · obtain ⟨added, h1, h2⟩ := ih tools
      exact ⟨added, h1, fun a ha => List.mem_cons_of_mem _ (h2 a ha)⟩
    · obtain ⟨added, h1, h2⟩ := ih (tools ++ [t])
      refine ⟨t :: added, ?_, ?_⟩
      · show ((restoreMerge (tools ++ [t]) rest).1, (restoreMerge (tools ++ [t]) rest).2 + 1).1
          = tools ++ t :: added
        rw [h1]
        simp
      · intro a ha
        rcases List.mem_cons.mp ha with ha | ha
        · exact ha ▸ List.mem_cons_self _ _
        · exact List.mem_cons_of_mem _ (h2 a ha)

theorem restore_mapGet (r : ToolRegistry) (snap : List RegisteredTool) (id : String)
    (h : (mapGet r.tools id).isSome) :
    mapGet ((restore r snap).1).tools id = mapGet r.tools id := by
  obtain ⟨added, h1, _⟩ := restoreMerge_append snap r.tools
  show mapGet (restoreMerge r.tools snap).1 id = mapGet r.tools id
  rw [h1]
  exact mapGet_append_left h

theorem find?_name_of_unique :
    ∀ (l : List RegisteredTool) (t : RegisteredTool), t ∈ l →
    (∀ u ∈ l, toMCPName u = toMCPName t → u = t) →
    l.find? (fun u => toMCPName u == toMCPName t) = some t := by
  intro l
  induction l with
  | nil => intro t ht _; exact absurd ht (List.not_mem_nil t)
  | cons u rest ih =>
    intro t ht huniq
    by_cases hm : toMCPName u = toMCPName t
    · rw [List.find?_cons_of_pos _ (by simp [hm])]
      rw [huniq u (List.mem_cons_self _ _) hm]
    · rw [List.find?_cons_of_neg _ (by simp [hm])]
      have ht' : t ∈ rest := by
        rcases List.mem_cons.mp ht with h | h
        · exact absurd (h ▸ rfl : toMCPName u = toMCPName t) hm
        · exact h
      exact ih t ht' (fun v hv => huniq v (List.mem_cons_of_mem _ hv))

/-- `resolveFromMCPName` returns the tool itself whenever its protocol
name is unique in the catalog. -/
theorem resolve_of_unique {r : ToolRegistry} {t : RegisteredTool} (ht : t ∈ r.tools)
    (huniq : ∀ u ∈ r.tools, toMCPName u = toMCPName t → u = t) :
    resolveFromMCPName r (toMCPName t) = some t :=
  find?_name_of_unique r.tools t ht huniq

/-! ## Catalog invariants (§3 of the spec) -/

/-- Total and per-origin bounds of the catalog. -/
def CapsOk (r : ToolRegistry) : Prop :=
  r.tools.length ≤ MAX_TOTAL_TOOLS ∧
    ∀ o : String, (getByOrigin r o).length ≤ MAX_TOOLS_PER_ORIGIN

theorem capsOk_of_sublist {r r' : ToolRegistry} (h : r'.tools.Sublist r.tools)
    (hc : CapsOk r) : CapsOk r' := by
  refine ⟨le_trans h.length_le hc.1, fun o => ?_⟩
  have h1 := List.Sublist.countP_le (fun t => t.origin == o) h
  rw [List.countP_eq_length_filter, List.countP_eq_length_filter] at h1
  exact le_trans h1 (hc.2 o)

theorem idInv_of_sublist {r r' : ToolRegistry} (h : r'.tools.Sublist r.tools)
    (hi : IdInv r) : IdInv r' :=
  fun t ht => hi t (h.subset ht)

theorem idsNodup_of_sublist {r r' : ToolRegistry} (h : r'.tools.Sublist r.tools)
    (hn : IdsNodup r) : IdsNodup r' :=
  List.Nodup.sublist (h.map (fun t => t.id)) hn

/-- A pointwise update that leaves `id`, `origin` and `name` untouched
preserves the catalog ids, all counts, and the id invariant. -/
theorem fieldMap_facts {l : List RegisteredTool} {f : RegisteredTool → RegisteredTool}
    (hf : ∀ t, (f t).id = t.id ∧ (f t).origin = t.origin ∧ (f t).name = t.name) :
    (l.map f).map (fun t => t.id) = l.map (fun t => t.id) ∧
    (∀ o : String, ((l.map f).filter (fun t => t.origin == o)).length =
      (l.filter (fun t => t.origin == o)).length) ∧
    (l.map f).length = l.length ∧
    ((∀ t ∈ l, IdOk t) → ∀ t ∈ l.map f, IdOk t) := by
  refine ⟨?_, ?_, by simp, ?_⟩
  · rw [List.map_map]
    exact List.map_congr_left (fun t _ => (hf t).1)
  · intro o
    rw [← List.countP_eq_length_filter, ← List.countP_eq_length_filter, List.countP_map]
    exact List.countP_congr (fun t _ => by
      simp only [Function.comp_apply, (hf t).2.1])
  · intro hid t ht
    rcases List.mem_map.mp ht with ⟨v, hv, hfv⟩
    have := hid v hv
    unfold IdOk at this ⊢
    rw [← hfv, (hf v).1, (hf v).2.1, (hf v).2.2]
    exact this

theorem curatedInsert_idsNodup (now : Nat) (origin : String) :
    ∀ (cs : List CuratedToolDef) (tools : List RegisteredTool),
    (tools.map (fun t => t.id)).Nodup →
    ((curatedInsert tools now origin cs).map (fun t => t.id)).Nodup := by
  intro cs
  induction cs with
  | nil => intro tools h; exact h
  | cons c rest ih =>
    intro tools h
    unfold curatedInsert
    split
    · exact ih tools h
    · next hany =>
      refine ih _ ?_
      rw [List.map_append]
      rw [List.nodup_append]
      refine ⟨h, by simp, ?_⟩
      intro x hx hx'
      rcases List.mem_map.mp hx with ⟨v, hv, hvid⟩
      have hxe : x = origin ++ "::" ++ c.name := by
        simpa [curatedEntry] using hx'
      exact hany (List.any_eq_true.mpr ⟨v, hv, by rw [beq_iff_eq, hvid, hxe]⟩)

theorem curatedInsert_idOk (now : Nat) (origin : String)
    (cs : List CuratedToolDef) (tools : List RegisteredTool)
    (h : ∀ t ∈ tools, IdOk t) :
    ∀ t ∈ curatedInsert tools now origin cs, IdOk t := by
  obtain ⟨added, h1, h2⟩ := curatedInsert_append now origin cs tools
  rw [h1]
  intro t ht
  rcases List.mem_append.mp ht with ht | ht
  · exact h t ht
  · obtain ⟨c, _, hc⟩ := h2 t ht
    rw [hc]
    rfl

theorem restoreMerge_idsNodup :
    ∀ (snap : List RegisteredTool) (tools : List RegisteredTool),
    (tools.map (fun t => t.id)).Nodup →
    (((restoreMerge tools snap).1).map (fun t => t.id)).Nodup := by
  intro snap
  induction snap with
  | nil => intro tools h; exact h
  | cons t rest ih =>
    intro tools h
    unfold restoreMerge
    split
    · exact ih tools h
    · next hany =>
      show ((((restoreMerge (tools ++ [t]) rest).1,
        (restoreMerge (tools ++ [t]) rest).2 + 1).1).map (fun u => u.id)).Nodup
      refine ih _ ?_
      rw [List.map_append]
      rw [List.nodup_append]
      refine ⟨h, by simp, ?_⟩
      intro x hx hx'
      rcases List.mem_map.mp hx with ⟨v, hv, hvid⟩
      have hxe : x = t.id := by simpa using hx'
      exact hany (List.any_eq_true.mpr ⟨v, hv, by rw [beq_iff_eq, hvid, hxe]⟩)

theorem restoreMerge_idOk (snap : List RegisteredTool) (tools : List RegisteredTool)
    (h : ∀ t ∈ tools, IdOk t) (hs : ∀ t ∈ snap, IdOk t) :
    ∀ t ∈ (restoreMerge tools snap).1, IdOk t := by
  obtain ⟨added, h1, h2⟩ := restoreMerge_append snap tools
  rw [h1]
  intro t ht
  rcases List.mem_append.mp ht with ht | ht
  · exact h t ht
  · exact hs t (h2 t ht)

/-! ## Unfolding equations for `register` -/

theorem register_rejected_total {r : ToolRegistry} {now tabId url origin d auth}
    (h : r.tools.length ≥ MAX_TOTAL_TOOLS) :
    register r now tabId url origin d auth = (none, r, []) := by
  unfold register
  rw [if_pos h]

theorem register_rejected_origin {r : ToolRegistry} {now tabId url origin d auth}
    (h1 : ¬ r.tools.length ≥ MAX_TOTAL_TOOLS)
    (h2 : (getByOrigin r origin).length ≥ MAX_TOOLS_PER_ORIGIN) :
    register r now tabId url origin d auth = (none, r, []) := by
  unfold register
  rw [if_neg h1, if_pos h2]

theorem register_accepted {r : ToolRegistry} {now tabId url origin d auth}
    (h1 : ¬ r.tools.length ≥ MAX_TOTAL_TOOLS)
    (h2 : ¬ (getByOrigin r origin).length ≥ MAX_TOOLS_PER_ORIGIN) :
    register r now tabId url origin d auth =
      (some (mkLiveTool now tabId url origin d auth),
        { r with
          tools := mapSet r.tools (mkLiveTool now tabId url origin d auth)
          pendingRemoval := r.pendingRemoval.filter
            (fun s => s != origin ++ "::" ++ d.name) },
        notifyEvents r) := by
  unfold register
  rw [if_neg h1, if_neg h2]

theorem register_none_iff {r : ToolRegistry} {now tabId url origin d auth} :
    (register r now tabId url origin d auth).1 = none ↔
      r.tools.length ≥ MAX_TOTAL_TOOLS ∨
        (getByOrigin r origin).length ≥ MAX_TOOLS_PER_ORIGIN := by
  constructor
  · intro h
    by_cases h1 : r.tools.length ≥ MAX_TOTAL_TOOLS
    · exact Or.inl h1
    by_cases h2 : (getByOrigin r origin).length ≥ MAX_TOOLS_PER_ORIGIN
    · exact Or.inr h2
    rw [register_accepted h1 h2] at h
    simp at h
  · intro h
    by_cases h1 : r.tools.length ≥ MAX_TOTAL_TOOLS
    · rw [register_rejected_total h1]
    · rcases h with h | h
      · exact absurd h h1
      · rw [register_rejected_origin h1 h]

theorem register_none_state {r : ToolRegistry} {now tabId url origin d auth}
    (h : (register r now tabId url origin d auth).1 = none) :
    (register r now tabId url origin d auth).2.1 = r ∧
      (register r now tabId url origin d auth).2.2 = [] := by
  rcases register_none_iff.mp h with h1 | h1
  · rw [register_rejected_total h1]; exact ⟨rfl, rfl⟩
  · by_cases h0 : r.tools.length ≥ MAX_TOTAL_TOOLS
    · rw [register_rejected_total h0]; exact ⟨rfl, rfl⟩
    · rw [register_rejected_origin h0 h1]; exact ⟨rfl, rfl⟩

/-! ## Invariant preservation, operation by operation -/

theorem register_preserves {r : ToolRegistry} (now : Nat) (tabId : Int)
    (url origin : String) (d : DiscoveredTool) (auth : AuthState)
    (hn : IdsNodup r) (hc : CapsOk r) (hi : IdInv r) :
    IdsNodup (register r now tabId url origin d auth).2.1 ∧
      CapsOk (register r now tabId url origin d auth).2.1 ∧
      IdInv (register r now tabId url origin d auth).2.1 := by
  by_cases h1 : r.tools.length ≥ MAX_TOTAL_TOOLS
  · rw [register_rejected_total h1]; exact ⟨hn, hc, hi⟩
  by_cases h2 : (getByOrigin r origin).length ≥ MAX_TOOLS_PER_ORIGIN
  · rw [register_rejected_origin h1 h2]; exact ⟨hn, hc, hi⟩
  rw [register_accepted h1 h2]
  set tool := mkLiveTool now tabId url origin d auth with htool
  refine ⟨idsNodup_mapSet tool hn, ⟨?_, ?_⟩, ?_⟩
  · show (mapSet r.tools tool).length ≤ MAX_TOTAL_TOOLS
    have := length_mapSet_le r.tools tool
    omega
  · intro o
    show (List.filter (fun t => t.origin == o) (mapSet r.tools tool)).length ≤
      MAX_TOOLS_PER_ORIGIN
    have hle := countP_mapSet_le tool (fun t => t.origin == o) hn
    rw [List.countP_eq_length_filter, List.countP_eq_length_filter] at hle
    have hle' : (List.filter (fun t => t.origin == o) (mapSet r.tools tool)).length ≤
        (List.filter (fun t => t.origin == o) r.tools).length +
          if (tool.origin == o) = true then 1 else 0 := hle
    have horig : tool.origin = origin := rfl
    have hro : (getByOrigin r o).length = (List.filter (fun t => t.origin == o) r.tools).length :=
      rfl
    by_cases ho : origin = o
    · have hp : (tool.origin == o) = true := by rw [horig, ho]; simp
      rw [hp] at hle'
      norm_num at hle'
      have hco := hc.2 o
      have h2' : (getByOrigin r o).length < MAX_TOOLS_PER_ORIGIN := by
        rw [← ho]; omega
      omega
    · have hp : (tool.origin == o) = false := by
        rw [horig]; simp [ho]
      rw [hp] at hle'
      have hco := hc.2 o
      simp only [Bool.false_eq_true, if_false] at hle'
      omega
  · intro t ht
    rcases mem_mapSet_elim ht with ht | ht
    · rw [ht]; rfl
    · exact hi t ht

theorem unregister_preserves (r : ToolRegistry) (id : String)
    (hn : IdsNodup r) (hc : CapsOk r) (hi : IdInv r) :
    IdsNodup (unregister r id).1 ∧ CapsOk (unregister r id).1 ∧ IdInv (unregister r id).1 :=
  ⟨idsNodup_of_sublist (unregister_tools_sublist r id) hn,
    capsOk_of_sublist (unregister_tools_sublist r id) hc,
    idInv_of_sublist (unregister_tools_sublist r id) hi⟩

theorem onTabRemoved_tools (r : ToolRegistry) (tabId : Int) :
    (onTabRemoved r tabId).tools = r.tools := rfl

theorem onTabRemoved_preserves (r : ToolRegistry) (tabId : Int)
    (hn : IdsNodup r) (hc : CapsOk r) (hi : IdInv r) :
    IdsNodup (onTabRemoved r tabId) ∧ CapsOk (onTabRemoved r tabId) ∧
      IdInv (onTabRemoved r tabId) :=
  ⟨hn, hc, hi⟩

theorem fireRemoval_tools_sublist (r : ToolRegistry) (id : String) :
    ((fireRemoval r id).1).tools.Sublist r.tools := by
  unfold fireRemoval
  split
  · exact unregister_tools_sublist r id
  · exact List.Sublist.refl _

theorem fireRemoval_preserves (r : ToolRegistry) (id : String)
    (hn : IdsNodup r) (hc : CapsOk r) (hi : IdInv r) :
    IdsNodup (fireRemoval r id).1 ∧ CapsOk (fireRemoval r id).1 ∧
      IdInv (fireRemoval r id).1 :=
  ⟨idsNodup_of_sublist (fireRemoval_tools_sublist r id) hn,
    capsOk_of_sublist (fireRemoval_tools_sublist r id) hc,
    idInv_of_sublist (fireRemoval_tools_sublist r id) hi⟩

theorem onTabUpdated_tools_sublist (r : ToolRegistry) (tabId : Int)
    (newOrigin? : Option String) :
    ((onTabUpdated r tabId newOrigin?).1).tools.Sublist r.tools := by
  unfold onTabUpdated
  match newOrigin? with
  | none => exact List.Sublist.refl _
  | some newOrigin => exact unregisterMany_tools_sublist _ r

theorem onTabUpdated_preserves (r : ToolRegistry) (tabId : Int)
    (newOrigin? : Option String) (hn : IdsNodup r) (hc : CapsOk r) (hi : IdInv r) :
    IdsNodup (onTabUpdated r tabId newOrigin?).1 ∧
      CapsOk (onTabUpdated r tabId newOrigin?).1 ∧
      IdInv (onTabUpdated r tabId newOrigin?).1 :=
  ⟨idsNodup_of_sublist (onTabUpdated_tools_sublist r tabId newOrigin?) hn,
    capsOk_of_sublist (onTabUpdated_tools_sublist r tabId newOrigin?) hc,
    idInv_of_sublist (onTabUpdated_tools_sublist r tabId newOrigin?) hi⟩

theorem mapOp_preserves {r : ToolRegistry} {f : RegisteredTool → RegisteredTool}
    (hf : ∀ t, (f t).id = t.id ∧ (f t).origin = t.origin ∧ (f t).name = t.name)
    (hn : IdsNodup r) (hc : CapsOk r) (hi : IdInv r) :
    IdsNodup { r with tools := r.tools.map f } ∧
      CapsOk { r with tools := r.tools.map f } ∧
      IdInv { r with tools := r.tools.map f } := by
  obtain ⟨hids, hcnt, hlen, hidok⟩ := fieldMap_facts (l := r.tools) hf
  refine ⟨?_, ⟨?_, ?_⟩, ?_⟩
  · show ((r.tools.map f).map (fun t => t.id)).Nodup
    rw [hids]; exact hn
  · show (r.tools.map f).length ≤ MAX_TOTAL_TOOLS
    rw [hlen]; exact hc.1
  · intro o
    show (List.filter (fun t => t.origin == o) (r.tools.map f)).length ≤
      MAX_TOOLS_PER_ORIGIN
    rw [hcnt o]; exact hc.2 o
  · intro t ht
    exact hidok hi t ht

theorem updateAuthState_preserves (r : ToolRegistry) (origin : String) (auth : AuthState)
    (hn : IdsNodup r) (hc : CapsOk r) (hi : IdInv r) :
    IdsNodup (updateAuthState r origin auth).1 ∧
      CapsOk (updateAuthState r origin auth).1 ∧
      IdInv (updateAuthState r origin auth).1 := by
  have hf : ∀ t : RegisteredTool,
      (updateAuthFn origin auth t).id = t.id ∧
      (updateAuthFn origin auth t).origin = t.origin ∧
      (updateAuthFn origin auth t).name = t.name := by
    intro t
    unfold updateAuthFn
    split <;> exact ⟨rfl, rfl, rfl⟩
  exact mapOp_preserves hf hn hc hi

theorem bindCuratedToTab_preserves (r : ToolRegistry) (now : Nat) (origin : String)
    (tabId : Int) (auth : AuthState)
    (hn : IdsNodup r) (hc : CapsOk r) (hi : IdInv r) :
    IdsNodup (bindCuratedToTab r now origin tabId auth).1 ∧
      CapsOk (bindCuratedToTab r now origin tabId auth).1 ∧
      IdInv (bindCuratedToTab r now origin tabId auth).1 := by
  have hf : ∀ t : RegisteredTool,
      (bindCuratedFn now origin tabId auth t).id = t.id ∧
      (bindCuratedFn now origin tabId auth t).origin = t.origin ∧
      (bindCuratedFn now origin tabId auth t).name = t.name := by
    intro t
    unfold bindCuratedFn
    split <;> exact ⟨rfl, rfl, rfl⟩
  exact mapOp_preserves hf hn hc hi

theorem registerCurated_preserves (r : ToolRegistry) (now : Nat) (origin : String)
    (cs : List CuratedToolDef) (hn : IdsNodup r) (hi : IdInv r) :
    IdsNodup (registerCurated r now origin cs).1 ∧ IdInv (registerCurated r now origin cs).1 :=
  ⟨curatedInsert_idsNodup now origin cs r.tools hn,
    curatedInsert_idOk now origin cs r.tools hi⟩

theorem restore_preserves (r : ToolRegistry) (snap : List RegisteredTool)
    (hn : IdsNodup r) (hi : IdInv r) (hs : ∀ t ∈ snap, IdOk t) :
    IdsNodup (restore r snap).1 ∧ IdInv (restore r snap).1 :=
  ⟨restoreMerge_idsNodup snap r.tools hn, restoreMerge_idOk snap r.tools hi hs⟩

end ToolRegistry

theorem contains_iff_mem_str {l : List String} {a : String} :
    l.contains a = true ↔ a ∈ l := by
  simp [List.contains_eq_any_beq]

/-! ## Concrete fixtures used by witnesses and counterexamples -/

def schemaObj : JSONSchema :=
  { type := "object", properties := none, required := none, description := none }

def dGo : DiscoveredTool :=
  { name := "go", description := "demo tool", inputSchema := schemaObj
    source := ToolSource.domFallback, selector := some "#go" }

def dSearch : DiscoveredTool :=
  { name := "search", description := "search tool", inputSchema := schemaObj
    source := ToolSource.webmcpNative, selector := none }

def cCur : CuratedToolDef :=
  { name := "send", description := "curated send", inputSchema := schemaObj
    selector := "#send" }

/-! ## Claim C1 -/

/-- Claim C1, amended.  The protocol name is a pure deterministic function
of the entry's origin and name; two entries whose origins have distinct
slugs never collide; resolving the protocol name of any registered tool
always succeeds and yields an entry carrying exactly that protocol name —
the first such entry in catalog insertion order — and therefore yields
that same tool whenever its protocol name is unique in the catalog.
(As originally stated the claim is false: the slug is not injective on
origins — see the counterexample, where `http://` and `https://` versions
of one host collide, resolution returns the first entry of the colliding
pair for both names, and the round trip fails for the second entry while
still succeeding for the first.) -/
theorem C1_protocol_naming :
    (∀ t u : RegisteredTool, t.origin = u.origin → t.name = u.name →
      toMCPName t = toMCPName u) ∧
    (∀ t u : RegisteredTool, originSlug t.origin ≠ originSlug u.origin →
      toMCPName t ≠ toMCPName u) ∧
    (∀ (r : ToolRegistry) (t : RegisteredTool), t ∈ r.tools →
      (∀ u ∈ r.tools, toMCPName u = toMCPName t → u = t) →
      ToolRegistry.resolveFromMCPName r (toMCPName t) = some t) ∧
    (∀ (r : ToolRegistry) (t : RegisteredTool), t ∈ r.tools →
      (ToolRegistry.resolveFromMCPName r (toMCPName t)).isSome = true) ∧
    (∀ (r : ToolRegistry) (t u : RegisteredTool),
      ToolRegistry.resolveFromMCPName r (toMCPName t) = some u →
      toMCPName u = toMCPName t) := by
  refine ⟨?_, ?_, ?_, ?_, ?_⟩
  · intro t u h1 h2
    exact (toMCPName_eq_iff t u).mpr ⟨by rw [h1], h2⟩
  · intro t u hslug heq
    exact hslug ((toMCPName_eq_iff t u).mp heq).1
  · intro r t ht huniq
    exact ToolRegistry.resolve_of_unique ht huniq
  · intro r t ht
    unfold ToolRegistry.resolveFromMCPName
    cases hf : r.tools.find? (fun u => toMCPName u == toMCPName t) with
    | some u => rfl
    | none =>
      rw [List.find?_eq_none] at hf
      exact absurd (by simp : (toMCPName t == toMCPName t) = true) (hf t ht)
  · intro r t u h
    have := List.find?_some h
    simpa using this

def c1wTool : RegisteredTool :=
  ToolRegistry.mkLiveTool 5 7 "https://a.test/x" "https://a.test" dGo AuthState.unknown

def c1wReg : ToolRegistry := ⟨[c1wTool], [], []⟩

theorem C1_protocol_naming_witness :
    ToolRegistry.resolveFromMCPName c1wReg (toMCPName c1wTool) = some c1wTool :=
  C1_protocol_naming.2.2.1 c1wReg c1wTool (List.mem_singleton.mpr rfl)
    (fun _ hu _ => List.mem_singleton.mp hu)

def c1xT1 : RegisteredTool :=
  ToolRegistry.mkLiveTool 0 1 "http://a.test/p" "http://a.test" dGo AuthState.unknown

def c1xT2 : RegisteredTool :=
  ToolRegistry.mkLiveTool 0 2 "https://a.test/p" "https://a.test" dGo AuthState.unknown

def c1xReg : ToolRegistry :=
  (ToolRegistry.register
    (ToolRegistry.register ToolRegistry.empty 0 1 "http://a.test/p" "http://a.test" dGo
      AuthState.unknown).2.1
    0 2 "https://a.test/p" "https://a.test" dGo AuthState.unknown).2.1

/-- Claim C1, counterexample.  Two registrations with different origins
(`http://a.test` and `https://a.test`) and the same tool name produce two
distinct catalog entries sharing the protocol name `a_test__go`; resolution
returns the first for both, so the round trip fails for the second — while
it still succeeds for the first, whose protocol name is equally
non-unique. -/
theorem C1_counterexample :
    c1xReg.tools = [c1xT1, c1xT2] ∧
    c1xT1.origin ≠ c1xT2.origin ∧
    toMCPName c1xT1 = toMCPName c1xT2 ∧
    ToolRegistry.resolveFromMCPName c1xReg (toMCPName c1xT2) = some c1xT1 ∧
    ToolRegistry.resolveFromMCPName c1xReg (toMCPName c1xT1) = some c1xT1 ∧
    c1xT1.tabId ≠ c1xT2.tabId := by
  refine ⟨rfl, by decide, rfl, rfl, rfl, by decide⟩

/-! ## Claim C2 -/

def c2Origin : String := "https://o.test"

def c2Tool (nm : String) : DiscoveredTool :=
  { name := nm, description := "d", inputSchema := schemaObj
    source := ToolSource.domFallback, selector := none }

/-- Fifty successful registrations of distinct names for one origin. -/
def c2Fold : ToolRegistry :=
  ((List.range MAX_TOOLS_PER_ORIGIN).map (fun i => "t" ++ toString i)).foldl
    (fun r nm =>
      (ToolRegistry.register r 0 1 "https://o.test/x" c2Origin (c2Tool nm)
        AuthState.unknown).2.1)
    ToolRegistry.empty

/-- The 51st registration, a distinct name. -/
def c2LastCall : Option RegisteredTool × ToolRegistry × List Nat :=
  ToolRegistry.register c2Fold 0 1 "https://o.test/x" c2Origin (c2Tool "t50")
    AuthState.unknown

/-- Claim C2, amended.  `register` returns the null marker, leaving the
state untouched, exactly when the catalog is already at the global cap or
the origin is already at the per-origin cap — including the case of an
overwrite that would not have grown either count (see the counterexample).
Registering `MAX_TOOLS_PER_ORIGIN + 1` distinct tools for one origin
leaves exactly `MAX_TOOLS_PER_ORIGIN` present, the last call rejected. -/
theorem C2_capacity :
    (∀ (r : ToolRegistry) (now : Nat) (tabId : Int) (url origin : String)
      (d : DiscoveredTool) (auth : AuthState),
      (ToolRegistry.register r now tabId url origin d auth).1 = none ↔
        r.tools.length ≥ MAX_TOTAL_TOOLS ∨
          (ToolRegistry.getByOrigin r origin).length ≥ MAX_TOOLS_PER_ORIGIN) ∧
    (∀ (r : ToolRegistry) (now : Nat) (tabId : Int) (url origin : String)
      (d : DiscoveredTool) (auth : AuthState),
      (ToolRegistry.register r now tabId url origin d auth).1 = none →
      (ToolRegistry.register r now tabId url origin d auth).2.1 = r) ∧
    ((ToolRegistry.getByOrigin c2Fold c2Origin).length = MAX_TOOLS_PER_ORIGIN ∧
      c2LastCall.1 = none ∧
      (ToolRegistry.getByOrigin c2LastCall.2.1 c2Origin).length =
        MAX_TOOLS_PER_ORIGIN) := by
  refine ⟨?_, ?_, ?_, ?_, ?_⟩
  · intro r now tabId url origin d auth
    exact ToolRegistry.register_none_iff
  · intro r now tabId url origin d auth h
    exact (ToolRegistry.register_none_state h).1
  · decide
  · rfl
  · decide

theorem C2_capacity_witness :
    (ToolRegistry.register c2Fold 0 1 "https://o.test/x" c2Origin (c2Tool "t50")
      AuthState.unknown).2.1 = c2Fold :=
  C2_capacity.2.1 c2Fold 0 1 "https://o.test/x" c2Origin (c2Tool "t50")
    AuthState.unknown rfl

/-- The rejection condition the claim describes, in the claim's own words:
actually applying the registration would push the total count past the
global cap or the origin's count past the per-origin cap. -/
def capsWouldBeExceeded (r : ToolRegistry) (now : Nat) (tabId : Int) (url origin : String)
    (d : DiscoveredTool) (auth : AuthState) : Prop :=
  (ToolRegistry.mapSet r.tools (ToolRegistry.mkLiveTool now tabId url origin d auth)).length >
      MAX_TOTAL_TOOLS ∨
    ((ToolRegistry.mapSet r.tools
        (ToolRegistry.mkLiveTool now tabId url origin d auth)).filter
      (fun t => t.origin == origin)).length > MAX_TOOLS_PER_ORIGIN

/-- Claim C2, counterexample.  With the origin at its cap, re-registering
a name that is already present would be a pure overwrite — neither count
would grow, so the claim says it must be accepted — yet `register`
rejects it, because the source checks the current counts before looking
at the identifier. -/
theorem C2_counterexample :
    (ToolRegistry.register c2Fold 0 2 "https://o.test/y" c2Origin (c2Tool "t0")
      AuthState.unknown).1 = none ∧
    ¬ capsWouldBeExceeded c2Fold 0 2 "https://o.test/y" c2Origin (c2Tool "t0")
      AuthState.unknown := by
  refine ⟨rfl, ?_⟩
  unfold capsWouldBeExceeded
  decide

/-! ## Claim C3 -/

theorem dispatchCatch_result (r : ToolRegistry) (tool : RegisteredTool)
    (msg : ExecuteToolMessage) (errMsg : String) :
    (dispatchCatch r tool msg errMsg).result =
      { content := [{ type := "text", text := "Execution failed: " ++ errMsg }]
        isError := some true } ∧
    (dispatchCatch r tool msg errMsg).sentMessage = some msg :=
  ⟨rfl, rfl⟩

theorem dispatchCatch_not_gone {r : ToolRegistry} {tool : RegisteredTool}
    {msg : ExecuteToolMessage} {errMsg : String} (h : isTargetGoneMsg errMsg = false) :
    (dispatchCatch r tool msg errMsg).registry = r := by
  unfold dispatchCatch
  simp only [h, Bool.false_eq_true, if_false]

theorem dispatchCatch_gone {r : ToolRegistry} {tool : RegisteredTool}
    {msg : ExecuteToolMessage} {errMsg : String} (h : isTargetGoneMsg errMsg = true) :
    ∀ u ∈ (dispatchCatch r tool msg errMsg).registry.tools, u.id ≠ tool.id := by
  unfold dispatchCatch
  simp only [h, if_true]
  exact ToolRegistry.not_mem_unregister_self

theorem executeToolCall_dispatched {r : ToolRegistry} {name : String}
    {args : List (String × String)} {reqId : String} {tool : RegisteredTool}
    (h : ToolRegistry.resolveFromMCPName r name = some tool)
    (ha : ¬ tool.authState = AuthState.loginRequired)
    (ht : ¬ tool.tabId = -1) (dispatch : DispatchOutcome) :
    executeToolCall r name args reqId dispatch =
      match dispatch with
      | DispatchOutcome.success payload =>
        { result := { content := [{ type := "text", text := payload }], isError := none }
          registry := r
          sentMessage := some { toolName := tool.name, arguments := args
                                source := tool.source, selector := tool.selector
                                requestId := reqId } }
      | DispatchOutcome.failure errMsg =>
        dispatchCatch r tool
          { toolName := tool.name, arguments := args, source := tool.source
            selector := tool.selector, requestId := reqId } errMsg
      | DispatchOutcome.timeout =>
        dispatchCatch r tool
          { toolName := tool.name, arguments := args, source := tool.source
            selector := tool.selector, requestId := reqId } "Tool execution timed out" := by
  unfold executeToolCall
  rw [h]
  dsimp only
  rw [if_neg ha, if_neg ht]

/-- Claim C3 (confirmed).  Once a call reaches dispatch, the race has
exactly the three terminal outcomes of `DispatchOutcome`, each producing a
protocol-visible result: a success wraps the payload with no error flag; a
timeout produces the `isError` result "Execution failed: Tool execution
timed out" and leaves the registry — hence the tool — untouched; a
rejection produces an `isError` result carrying the message, and
unregisters the tool exactly when the message is target-gone-shaped. -/
theorem C3_dispatch_outcomes :
    ∀ (r : ToolRegistry) (name : String) (args : List (String × String)) (reqId : String)
      (tool : RegisteredTool),
    ToolRegistry.resolveFromMCPName r name = some tool →
    tool.authState ≠ AuthState.loginRequired →
    tool.tabId ≠ -1 →
    (∀ payload : String,
      (executeToolCall r name args reqId (DispatchOutcome.success payload)).result =
        { content := [{ type := "text", text := payload }], isError := none } ∧
      (executeToolCall r name args reqId (DispatchOutcome.success payload)).registry = r) ∧
    ((executeToolCall r name args reqId DispatchOutcome.timeout).result =
      { content := [{ type := "text"
                      text := "Execution failed: Tool execution timed out" }]
        isError := some true } ∧
      (executeToolCall r name args reqId DispatchOutcome.timeout).registry = r ∧
      tool ∈ ToolRegistry.getAll
        (executeToolCall r name args reqId DispatchOutcome.timeout).registry) ∧
    (∀ errMsg : String,
      (executeToolCall r name args reqId (DispatchOutcome.failure errMsg)).result =
        { content := [{ type := "text", text := "Execution failed: " ++ errMsg }]
          isError := some true } ∧
      (isTargetGoneMsg errMsg = false →
        (executeToolCall r name args reqId (DispatchOutcome.failure errMsg)).registry = r) ∧
      (isTargetGoneMsg errMsg = true →
        ∀ u ∈ ToolRegistry.getAll
          (executeToolCall r name args reqId (DispatchOutcome.failure errMsg)).registry,
          u.id ≠ tool.id)) := by
  intro r name args reqId tool h ha ht
  have hmem : tool ∈ r.tools := List.mem_of_find?_eq_some h
  refine ⟨?_, ⟨?_, ?_, ?_⟩, ?_⟩
  · intro payload
    rw [executeToolCall_dispatched h ha ht]
    exact ⟨rfl, rfl⟩
  · rw [executeToolCall_dispatched h ha ht]
    exact (dispatchCatch_result _ _ _ _).1
  · rw [executeToolCall_dispatched h ha ht]
    exact dispatchCatch_not_gone (by decide)
  · rw [executeToolCall_dispatched h ha ht]
    rw [dispatchCatch_not_gone (by decide)]
    exact hmem
  · intro errMsg
    rw [executeToolCall_dispatched h ha ht]
    refine ⟨(dispatchCatch_result _ _ _ _).1, ?_, ?_⟩
    · intro hng
      exact dispatchCatch_not_gone hng
    · intro hg
      exact dispatchCatch_gone hg

def c3Tool : RegisteredTool :=
  ToolRegistry.mkLiveTool 0 7 "https://a.test/x" "https://a.test" dSearch
    AuthState.authenticated

def c3Reg : ToolRegistry := ⟨[c3Tool], [], []⟩

theorem C3_dispatch_outcomes_witness :
    (executeToolCall c3Reg (toMCPName c3Tool) [] "rq" DispatchOutcome.timeout).registry =
      c3Reg ∧
    (executeToolCall c3Reg (toMCPName c3Tool) [] "rq" DispatchOutcome.timeout).result =
      { content := [{ type := "text"
                      text := "Execution failed: Tool execution timed out" }]
        isError := some true } :=
  ⟨((C3_dispatch_outcomes c3Reg (toMCPName c3Tool) [] "rq" c3Tool rfl (by decide)
      (by decide)).2.1).2.1,
    ((C3_dispatch_outcomes c3Reg (toMCPName c3Tool) [] "rq" c3Tool rfl (by decide)
      (by decide)).2.1).1⟩

/-! ## Claim C4 -/

/-- Claim C4, amended.  A resolved tool in state `login-required` short
circuits to the authentication error result with no execution message sent
and no registry change; a resolved tool at the unbound sentinel whose auth
state is NOT `login-required` short circuits to the no-live-page error
result, again with nothing sent; and `tools/call` always wraps these as a
successful protocol response (`error = none`).  (As originally stated the
claim is false: a tool that is both `login-required` and unbound gets the
authentication message, not the no-live-page message — the auth check runs
first; see the counterexample.) -/
theorem C4_short_circuit :
    ∀ (r : ToolRegistry) (id : Nat) (name : String) (args : List (String × String))
      (reqId : String) (dispatch : DispatchOutcome) (tool : RegisteredTool),
    ToolRegistry.resolveFromMCPName r name = some tool →
    ((tool.authState = AuthState.loginRequired →
      executeToolCall r name args reqId dispatch =
        { result := { content := [{ type := "text", text := authRequiredText tool.origin }]
                      isError := some true }
          registry := r, sentMessage := none }) ∧
     (tool.authState ≠ AuthState.loginRequired → tool.tabId = -1 →
      executeToolCall r name args reqId dispatch =
        { result := { content := [{ type := "text"
                                    text := noTabText tool.name tool.origin }]
                      isError := some true }
          registry := r, sentMessage := none }) ∧
     (handleMCPRequest r id "tools/call" name args reqId dispatch).1.error = none ∧
     (handleMCPRequest r id "tools/call" name args reqId dispatch).1.result =
       some (MCPResultPayload.callResult
         (executeToolCall r name args reqId dispatch).result)) := by
  intro r id name args reqId dispatch tool h
  refine ⟨?_, ?_, ?_, ?_⟩
  · intro ha
    unfold executeToolCall
    rw [h]
    dsimp only
    rw [if_pos ha]
  · intro ha ht
    unfold executeToolCall
    rw [h]
    dsimp only
    rw [if_neg ha, if_pos ht]
  · unfold handleMCPRequest
    rw [if_neg (by decide), if_neg (by decide), if_pos rfl]
  · unfold handleMCPRequest
    rw [if_neg (by decide), if_neg (by decide), if_pos rfl]

def c4wTool : RegisteredTool :=
  ToolRegistry.mkLiveTool 0 4 "https://b.test/x" "https://b.test" dSearch
    AuthState.loginRequired

def c4wReg : ToolRegistry := ⟨[c4wTool], [], []⟩

theorem C4_short_circuit_witness :
    executeToolCall c4wReg (toMCPName c4wTool) [] "rq" DispatchOutcome.timeout =
      { result := { content := [{ type := "text"
                                  text := authRequiredText "https://b.test" }]
                    isError := some true }
        registry := c4wReg, sentMessage := none } :=
  (C4_short_circuit c4wReg 1 (toMCPName c4wTool) [] "rq" DispatchOutcome.timeout c4wTool
    rfl).1 rfl

/-- Curated tool at `https://b.test`, never bound (tab still `-1`), whose
origin-wide auth state was later reported as `login-required`. -/
def c4xReg : ToolRegistry :=
  (ToolRegistry.updateAuthState
    (ToolRegistry.registerCurated ToolRegistry.empty 0 "https://b.test" [cCur]).1
    "https://b.test" AuthState.loginRequired).1

/-- Claim C4, counterexample.  The resolved tool is at the unbound
sentinel (`tabId = -1`), so the claim as stated demands the no-live-page
message; the call instead returns the authentication message, because the
auth check precedes the unbound-context check. -/
theorem C4_counterexample :
    (ToolRegistry.resolveFromMCPName c4xReg "b_test__send").map (fun t => t.tabId) =
      some (-1) ∧
    (executeToolCall c4xReg "b_test__send" [] "rq" DispatchOutcome.timeout).result.content =
      [{ type := "text", text := authRequiredText "https://b.test" }] ∧
    authRequiredText "https://b.test" ≠ noTabText "send" "https://b.test" :=
  ⟨rfl, rfl, by decide⟩

/-! ## Claim C5 -/

/-- Claim C5, amended.  With unique catalog keys, `register`, `unregister`,
`onTabClosed` (`onTabRemoved`), a grace-timer expiry (`fireRemoval`),
`onTabNavigated` (`onTabUpdated`), `updateAuthState` and `bindCuratedToTab`
preserve all three catalog invariants (global cap, per-origin cap,
identifier = `origin::name`); `registerCurated` and `restore` preserve key
uniqueness and the identifier format (`restore` provided the snapshot's
records carry well-formed identifiers) but perform NO capacity check, so
they do not preserve the cap invariants — see the counterexample. -/
theorem C5_invariants :
    (∀ (r : ToolRegistry) (now : Nat) (tabId : Int) (url origin : String)
      (d : DiscoveredTool) (auth : AuthState),
      ToolRegistry.IdsNodup r → ToolRegistry.CapsOk r → ToolRegistry.IdInv r →
      ToolRegistry.IdsNodup (ToolRegistry.register r now tabId url origin d auth).2.1 ∧
      ToolRegistry.CapsOk (ToolRegistry.register r now tabId url origin d auth).2.1 ∧
      ToolRegistry.IdInv (ToolRegistry.register r now tabId url origin d auth).2.1) ∧
    (∀ (r : ToolRegistry) (id : String),
      ToolRegistry.IdsNodup r → ToolRegistry.CapsOk r → ToolRegistry.IdInv r →
      ToolRegistry.IdsNodup (ToolRegistry.unregister r id).1 ∧
      ToolRegistry.CapsOk (ToolRegistry.unregister r id).1 ∧
      ToolRegistry.IdInv (ToolRegistry.unregister r id).1) ∧
    (∀ (r : ToolRegistry) (tabId : Int),
      ToolRegistry.IdsNodup r → ToolRegistry.CapsOk r → ToolRegistry.IdInv r →
      ToolRegistry.IdsNodup (ToolRegistry.onTabRemoved r tabId) ∧
      ToolRegistry.CapsOk (ToolRegistry.onTabRemoved r tabId) ∧
      ToolRegistry.IdInv (ToolRegistry.onTabRemoved r tabId)) ∧
    (∀ (r : ToolRegistry) (id : String),
      ToolRegistry.IdsNodup r → ToolRegistry.CapsOk r → ToolRegistry.IdInv r →
      ToolRegistry.IdsNodup (ToolRegistry.fireRemoval r id).1 ∧
      ToolRegistry.CapsOk (ToolRegistry.fireRemoval r id).1 ∧
      ToolRegistry.IdInv (ToolRegistry.fireRemoval r id).1) ∧
    (∀ (r : ToolRegistry) (tabId : Int) (newOrigin? : Option String),
      ToolRegistry.IdsNodup r → ToolRegistry.CapsOk r → ToolRegistry.IdInv r →
      ToolRegistry.IdsNodup (ToolRegistry.onTabUpdated r tabId newOrigin?).1 ∧
      ToolRegistry.CapsOk (ToolRegistry.onTabUpdated r tabId newOrigin?).1 ∧
      ToolRegistry.IdInv (ToolRegistry.onTabUpdated r tabId newOrigin?).1) ∧
    (∀ (r : ToolRegistry) (origin : String) (auth : AuthState),
      ToolRegistry.IdsNodup r → ToolRegistry.CapsOk r → ToolRegistry.IdInv r →
      ToolRegistry.IdsNodup (ToolRegistry.updateAuthState r origin auth).1 ∧
      ToolRegistry.CapsOk (ToolRegistry.updateAuthState r origin auth).1 ∧
      ToolRegistry.IdInv (ToolRegistry.updateAuthState r origin auth).1) ∧
    (∀ (r : ToolRegistry) (now : Nat) (origin : String) (tabId : Int) (auth : AuthState),
      ToolRegistry.IdsNodup r → ToolRegistry.CapsOk r → ToolRegistry.IdInv r →
      ToolRegistry.IdsNodup (ToolRegistry.bindCuratedToTab r now origin tabId auth).1 ∧
      ToolRegistry.CapsOk (ToolRegistry.bindCuratedToTab r now origin tabId auth).1 ∧
      ToolRegistry.IdInv (ToolRegistry.bindCuratedToTab r now origin tabId auth).1) ∧
    (∀ (r : ToolRegistry) (now : Nat) (origin : String) (cs : List CuratedToolDef),
      ToolRegistry.IdsNodup r → ToolRegistry.IdInv r →
      ToolRegistry.IdsNodup (ToolRegistry.registerCurated r now origin cs).1 ∧
      ToolRegistry.IdInv (ToolRegistry.registerCurated r now origin cs).1) ∧
    (∀ (r : ToolRegistry) (snap : List RegisteredTool),
      ToolRegistry.IdsNodup r → ToolRegistry.IdInv r →
      (∀ t ∈ snap, ToolRegistry.IdOk t) →
      ToolRegistry.IdsNodup (ToolRegistry.restore r snap).1 ∧
      ToolRegistry.IdInv (ToolRegistry.restore r snap).1) := by
  refine ⟨?_, ?_, ?_, ?_, ?_, ?_, ?_, ?_, ?_⟩
  · intro r now tabId url origin d auth hn hc hi
    exact ToolRegistry.register_preserves now tabId url origin d auth hn hc hi
  · intro r id hn hc hi
    exact ToolRegistry.unregister_preserves r id hn hc hi
  · intro r tabId hn hc hi
    exact ToolRegistry.onTabRemoved_preserves r tabId hn hc hi
  · intro r id hn hc hi
    exact ToolRegistry.fireRemoval_preserves r id hn hc hi
  · intro r tabId o? hn hc hi
    exact ToolRegistry.onTabUpdated_preserves r tabId o? hn hc hi
  · intro r origin auth hn hc hi
    exact ToolRegistry.updateAuthState_preserves r origin auth hn hc hi
  · intro r now origin tabId auth hn hc hi
    exact ToolRegistry.bindCuratedToTab_preserves r now origin tabId auth hn hc hi
  · intro r now origin cs hn hi
    exact ToolRegistry.registerCurated_preserves r now origin cs hn hi
  · intro r snap hn hi hs
    exact ToolRegistry.restore_preserves r snap hn hi hs

theorem C5_invariants_witness :
    ToolRegistry.CapsOk
      (ToolRegistry.register ToolRegistry.empty 0 1 "https://a.test/x" "https://a.test"
        dGo AuthState.unknown).2.1 ∧
    ToolRegistry.IdInv
      (ToolRegistry.register ToolRegistry.empty 0 1 "https://a.test/x" "https://a.test"
        dGo AuthState.unknown).2.1 :=
  ⟨(C5_invariants.1 ToolRegistry.empty 0 1 "https://a.test/x" "https://a.test" dGo
      AuthState.unknown List.nodup_nil ⟨by decide, fun _ => Nat.zero_le _⟩
      (fun t ht => absurd ht (List.not_mem_nil t))).2.1,
    (C5_invariants.1 ToolRegistry.empty 0 1 "https://a.test/x" "https://a.test" dGo
      AuthState.unknown List.nodup_nil ⟨by decide, fun _ => Nat.zero_le _⟩
      (fun t ht => absurd ht (List.not_mem_nil t))).2.2⟩

/-- Fifty-one curated definitions for one origin. -/
def c5Defs : List CuratedToolDef :=
  (List.range 51).map (fun i =>
    { name := "c" ++ toString i, description := "d", inputSchema := schemaObj
      selector := "#x" })

def c5Reg : ToolRegistry :=
  (ToolRegistry.registerCurated ToolRegistry.empty 0 "https://o.test" c5Defs).1

/-- Claim C5, counterexample.  `registerCurated` performs no capacity
check: inserting 51 curated definitions for one origin into the empty
catalog (which satisfies every invariant) yields 51 entries at that
origin, violating the per-origin cap of 50, so the cap invariants are not
preserved by every mutating operation. -/
theorem C5_counterexample :
    ToolRegistry.CapsOk ToolRegistry.empty ∧
    (ToolRegistry.getByOrigin c5Reg "https://o.test").length = 51 ∧
    ¬ ToolRegistry.CapsOk c5Reg := by
  refine ⟨⟨by decide, fun _ => Nat.zero_le _⟩, by decide, ?_⟩
  intro h
  have h51 : (ToolRegistry.getByOrigin c5Reg "https://o.test").length = 51 := by decide
  have hle := h.2 "https://o.test"
  rw [h51] at hle
  exact absurd hle (by decide)

/-! ## Claim C6 -/

theorem pendingInsert_mono :
    ∀ (ts : List RegisteredTool) (p : List String) (x : String),
    p.contains x = true →
    (ts.foldl (fun acc t => if acc.contains t.id then acc else acc ++ [t.id]) p).contains
      x = true := by
  intro ts
  induction ts with
  | nil => intro p x h; exact h
  | cons u rest ih =>
    intro p x h
    rw [List.foldl_cons]
    apply ih
    by_cases hc : p.contains u.id = true
    · rw [if_pos hc]; exact h
    · rw [if_neg hc]
      rw [contains_iff_mem_str] at h ⊢
      exact List.mem_append_left _ h

theorem pendingInsert_contains :
    ∀ (ts : List RegisteredTool) (p : List String) (t : RegisteredTool), t ∈ ts →
    (ts.foldl (fun acc u => if acc.contains u.id then acc else acc ++ [u.id]) p).contains
      t.id = true := by
  intro ts
  induction ts with
  | nil => intro p t ht; exact absurd ht (List.not_mem_nil t)
  | cons u rest ih =>
    intro p t ht
    rcases List.mem_cons.mp ht with h | h
    · subst h
      rw [List.foldl_cons]
      apply pendingInsert_mono
      by_cases hc : p.contains t.id = true
      · rw [if_pos hc]; exact hc
      · rw [if_neg hc]
        rw [contains_iff_mem_str]
        exact List.mem_append_right _ (List.mem_singleton.mpr rfl)
    · rw [List.foldl_cons]
      exact ih _ t h

theorem onTabRemoved_pending_contains {r : ToolRegistry} {ctx : Int} {t : RegisteredTool}
    (ht : t ∈ r.tools) (htab : t.tabId = ctx) :
    (ToolRegistry.onTabRemoved r ctx).pendingRemoval.contains t.id = true := by
  unfold ToolRegistry.onTabRemoved
  apply pendingInsert_contains
  exact List.mem_filter.mpr ⟨ht, by simp [htab]⟩

theorem contains_filter_ne (l : List String) (x : String) :
    (l.filter (fun s => s != x)).contains x = false := by
  by_contra h
  rw [Bool.not_eq_false, contains_iff_mem_str] at h
  have := (List.mem_filter.mp h).2
  simp at this

/-- Claim C6 (confirmed, with the grace timer embedded as the
`pendingRemoval` set plus the explicit expiry step `fireRemoval`, and the
re-registration assumed to pass the capacity checks).  After
`onTabClosed`, a tool of that context is still present; the expiry of its
pending timer removes it; a successful re-registration of the same
`(origin, name)` first cancels the pending timer, so a later expiry
attempt is a no-op and the identifier stays in the catalog. -/
theorem C6_grace_period :
    ∀ (r : ToolRegistry) (ctx : Int) (t : RegisteredTool) (now : Nat) (tab2 : Int)
      (url2 : String) (d : DiscoveredTool) (auth : AuthState),
    t ∈ r.tools → t.tabId = ctx → ToolRegistry.IdOk t → d.name = t.name →
    (t ∈ (ToolRegistry.onTabRemoved r ctx).tools) ∧
    (∀ u ∈ ((ToolRegistry.fireRemoval (ToolRegistry.onTabRemoved r ctx) t.id).1).tools,
      u.id ≠ t.id) ∧
    (r.tools.length < MAX_TOTAL_TOOLS →
      (ToolRegistry.getByOrigin r t.origin).length < MAX_TOOLS_PER_ORIGIN →
      (ToolRegistry.register (ToolRegistry.onTabRemoved r ctx) now tab2 url2 t.origin d
        auth).1.isSome = true ∧
      ((ToolRegistry.register (ToolRegistry.onTabRemoved r ctx) now tab2 url2 t.origin d
        auth).2.1).pendingRemoval.contains t.id = false ∧
      (ToolRegistry.fireRemoval
        (ToolRegistry.register (ToolRegistry.onTabRemoved r ctx) now tab2 url2 t.origin d
          auth).2.1 t.id).1 =
        (ToolRegistry.register (ToolRegistry.onTabRemoved r ctx) now tab2 url2 t.origin d
          auth).2.1 ∧
      (ToolRegistry.mapGet
        ((ToolRegistry.register (ToolRegistry.onTabRemoved r ctx) now tab2 url2 t.origin d
          auth).2.1).tools t.id).isSome = true) := by
  intro r ctx t now tab2 url2 d auth ht htab hidok hd
  have hpend : (ToolRegistry.onTabRemoved r ctx).pendingRemoval.contains t.id = true :=
    onTabRemoved_pending_contains ht htab
  refine ⟨ht, ?_, ?_⟩
  · unfold ToolRegistry.fireRemoval
    rw [if_pos hpend]
    exact ToolRegistry.not_mem_unregister_self
  · intro hcap1 hcap2
    have h1 : ¬ (ToolRegistry.onTabRemoved r ctx).tools.length ≥ MAX_TOTAL_TOOLS :=
      Nat.not_le.mpr hcap1
    have h2 : ¬ (ToolRegistry.getByOrigin (ToolRegistry.onTabRemoved r ctx)
        t.origin).length ≥ MAX_TOOLS_PER_ORIGIN :=
      Nat.not_le.mpr hcap2
    have hid : (ToolRegistry.mkLiveTool now tab2 url2 t.origin d auth).id = t.id := by
      show t.origin ++ "::" ++ d.name = t.id
      rw [hd]
      exact hidok.symm
    rw [ToolRegistry.register_accepted h1 h2]
    refine ⟨rfl, ?_, ?_, ?_⟩
    · have : t.origin ++ "::" ++ d.name = t.id := by rw [hd]; exact hidok.symm
      rw [this]
      exact contains_filter_ne _ _
    · have hcf : ((ToolRegistry.onTabRemoved r ctx).pendingRemoval.filter
          (fun s => s != t.origin ++ "::" ++ d.name)).contains t.id = false := by
        have : t.origin ++ "::" ++ d.name = t.id := by rw [hd]; exact hidok.symm
        rw [this]
        exact contains_filter_ne _ _
      unfold ToolRegistry.fireRemoval
      simp only [hcf, Bool.false_eq_true, if_false]
    · rw [← hid, ToolRegistry.mapGet_mapSet_self]
      rfl

def c6Tool : RegisteredTool :=
  ToolRegistry.mkLiveTool 0 3 "https://a.test/x" "https://a.test" dGo AuthState.unknown

def c6Reg : ToolRegistry := ⟨[c6Tool], [], []⟩

theorem C6_grace_period_witness :
    (c6Tool ∈ (ToolRegistry.onTabRemoved c6Reg 3).tools) ∧
    (ToolRegistry.mapGet
      ((ToolRegistry.register (ToolRegistry.onTabRemoved c6Reg 3) 9 4 "https://a.test/y"
        c6Tool.origin dGo AuthState.unknown).2.1).tools c6Tool.id).isSome = true := by
  have h := C6_grace_period c6Reg 3 c6Tool 9 4 "https://a.test/y" dGo AuthState.unknown
    (List.mem_singleton.mpr rfl) rfl rfl rfl
  exact ⟨h.1, (h.2.2 (by decide) (by decide)).2.2.2⟩

/-! ## Claim C7 -/

theorem ToolRegistry.eq_of_id_eq {r : ToolRegistry} (hn : ToolRegistry.IdsNodup r)
    {t v : RegisteredTool} (ht : t ∈ r.tools) (hv : v ∈ r.tools) (h : t.id = v.id) :
    t = v :=
  List.inj_on_of_nodup_map hn ht hv h

theorem ToolRegistry.mem_register_of_ne {r : ToolRegistry} {now : Nat} {tabId : Int}
    {url origin : String} {d : DiscoveredTool} {auth : AuthState} {t : RegisteredTool}
    (ht : t ∈ r.tools) (hne : t.id ≠ origin ++ "::" ++ d.name) :
    t ∈ ((ToolRegistry.register r now tabId url origin d auth).2.1).tools := by
  by_cases h1 : r.tools.length ≥ MAX_TOTAL_TOOLS
  · rw [ToolRegistry.register_rejected_total h1]; exact ht
  by_cases h2 : (ToolRegistry.getByOrigin r origin).length ≥ MAX_TOOLS_PER_ORIGIN
  · rw [ToolRegistry.register_rejected_origin h1 h2]; exact ht
  rw [ToolRegistry.register_accepted h1 h2]
  exact ToolRegistry.mem_mapSet_of_ne ht hne

theorem mem_registerMany_of_ne :
    ∀ (batch : List DiscoveredTool) (r : ToolRegistry) (now : Nat) (tabId : Int)
      (url origin : String) (auth : AuthState) (t : RegisteredTool),
    t ∈ r.tools → (∀ d ∈ batch, t.id ≠ origin ++ "::" ++ d.name) →
    t ∈ ((registerMany r now tabId url origin auth batch).1).tools := by
  intro batch
  induction batch with
  | nil => intro r _ _ _ _ _ t ht _; exact ht
  | cons d rest ih =>
    intro r now tabId url origin auth t ht hne
    show t ∈ ((registerMany (ToolRegistry.register r now tabId url origin d auth).2.1
      now tabId url origin auth rest).1).tools
    exact ih _ now tabId url origin auth t
      (ToolRegistry.mem_register_of_ne ht (hne d (List.mem_cons_self _ _)))
      (fun d' hd' => hne d' (List.mem_cons_of_mem _ hd'))

/-- Claim C7, amended.  During a non-curated `PAGE_TOOLS` batch for
context `C` at origin `O`, every entry owned by another context whose
identifier is not among the batch identifiers `O::name` survives
unchanged.  (As originally stated the claim is false: an entry owned by
*another* context at the same origin whose name appears in the batch is
overwritten and rebound to `C`, because the catalog is keyed by
`origin::name` only — see the counterexample.) -/
theorem C7_batch_frame :
    ∀ (r : ToolRegistry) (now : Nat) (tabId : Int) (url origin : String)
      (batch : List DiscoveredTool) (auth : AuthState) (t : RegisteredTool),
    ToolRegistry.IdsNodup r →
    t ∈ r.tools → t.tabId ≠ tabId →
    (∀ d ∈ batch, t.id ≠ origin ++ "::" ++ d.name) →
    t ∈ ((handlePageToolsBatch r now tabId url origin batch auth).1).tools := by
  intro r now tabId url origin batch auth t hn ht htab hbatch
  unfold handlePageToolsBatch
  dsimp only
  refine mem_registerMany_of_ne batch _ now tabId url origin auth t ?_ hbatch
  refine ToolRegistry.mem_unregisterMany_of_ne _ _ t ht ?_
  intro id hid hc
  rcases List.mem_map.mp hid with ⟨v, hv, hvid⟩
  have hv1 : v ∈ ToolRegistry.getByTab r tabId := (List.mem_filter.mp hv).1
  obtain ⟨hvr, hvt⟩ := List.mem_filter.mp hv1
  have hvtab : v.tabId = tabId := by simpa using hvt
  have heq : t = v := ToolRegistry.eq_of_id_eq hn ht hvr (hc.trans hvid.symm)
  exact htab (by rw [heq]; exact hvtab)

def c7xReg : ToolRegistry :=
  (ToolRegistry.register ToolRegistry.empty 0 1 "https://o.test/a" "https://o.test"
    dSearch AuthState.unknown).2.1

def c7xAfter : ToolRegistry :=
  (handlePageToolsBatch c7xReg 5 2 "https://o.test/b" "https://o.test" [dSearch]
    AuthState.unknown).1

/-- Claim C7, counterexample.  The tool `search` at `https://o.test` is
owned by tab 1; a full batch report from tab 2 at the same origin whose
batch contains `search` overwrites the entry and rebinds it to tab 2, so
an entry owned by another context at the same origin was NOT left
unchanged. -/
theorem C7_counterexample :
    (ToolRegistry.mapGet c7xReg.tools "https://o.test::search").map (fun t => t.tabId) =
      some 1 ∧
    (ToolRegistry.mapGet c7xAfter.tools "https://o.test::search").map (fun t => t.tabId) =
      some 2 :=
  ⟨rfl, rfl⟩

def c7wTool : RegisteredTool :=
  ToolRegistry.mkLiveTool 0 1 "https://o.test/a" "https://o.test" dSearch
    AuthState.unknown

theorem C7_batch_frame_witness :
    c7wTool ∈ ((handlePageToolsBatch c7xReg 5 2 "https://o.test/b" "https://o.test" [dGo]
      AuthState.unknown).1).tools :=
  C7_batch_frame c7xReg 5 2 "https://o.test/b" "https://o.test" [dGo] AuthState.unknown
    c7wTool (show (c7xReg.tools.map (fun t => t.id)).Nodup by decide)
    (List.mem_singleton.mpr rfl) (by decide) (by decide)

/-! ## Claim C8 -/

def dSend : DiscoveredTool :=
  { name := "send", description := "live send", inputSchema := schemaObj
    source := ToolSource.webmcpNative, selector := some "#s2" }

/-- Claim C8 (confirmed, under the capacity checks of the live
registration).  `registerCurated` never touches an identifier that is
already present; `restore` only adds identifiers that are absent; and
`register` overwrites — so in either order of a bundled and a live
registration of the same `(origin, name)`, the catalog afterwards holds
the live record (with its own source tier). -/
theorem C8_live_precedence :
    (∀ (r : ToolRegistry) (now : Nat) (origin : String) (cs : List CuratedToolDef)
      (id : String),
      (ToolRegistry.mapGet r.tools id).isSome →
      ToolRegistry.mapGet ((ToolRegistry.registerCurated r now origin cs).1).tools id =
        ToolRegistry.mapGet r.tools id) ∧
    (∀ (r : ToolRegistry) (snap : List RegisteredTool) (id : String),
      (ToolRegistry.mapGet r.tools id).isSome →
      ToolRegistry.mapGet ((ToolRegistry.restore r snap).1).tools id =
        ToolRegistry.mapGet r.tools id) ∧
    (∀ (r : ToolRegistry) (now now' : Nat) (origin : String) (c : CuratedToolDef)
      (d : DiscoveredTool) (tabId : Int) (url : String) (auth : AuthState),
      d.name = c.name →
      ¬ ((ToolRegistry.registerCurated r now origin [c]).1).tools.length ≥
        MAX_TOTAL_TOOLS →
      ¬ (ToolRegistry.getByOrigin (ToolRegistry.registerCurated r now origin [c]).1
        origin).length ≥ MAX_TOOLS_PER_ORIGIN →
      ToolRegistry.mapGet
        ((ToolRegistry.register (ToolRegistry.registerCurated r now origin [c]).1 now'
          tabId url origin d auth).2.1).tools (origin ++ "::" ++ d.name) =
        some (ToolRegistry.mkLiveTool now' tabId url origin d auth)) ∧
    (∀ (r : ToolRegistry) (now now' : Nat) (origin : String) (c : CuratedToolDef)
      (d : DiscoveredTool) (tabId : Int) (url : String) (auth : AuthState),
      d.name = c.name →
      ¬ r.tools.length ≥ MAX_TOTAL_TOOLS →
      ¬ (ToolRegistry.getByOrigin r origin).length ≥ MAX_TOOLS_PER_ORIGIN →
      ToolRegistry.mapGet
        ((ToolRegistry.registerCurated
          (ToolRegistry.register r now' tabId url origin d auth).2.1 now origin
          [c]).1).tools (origin ++ "::" ++ d.name) =
        some (ToolRegistry.mkLiveTool now' tabId url origin d auth)) := by
  refine ⟨?_, ?_, ?_, ?_⟩
  · intro r now origin cs id h
    exact ToolRegistry.curatedInsert_mapGet now origin cs r.tools id h
  · intro r snap id h
    exact ToolRegistry.restore_mapGet r snap id h
  · intro r now now' origin c d tabId url auth _ h1 h2
    rw [ToolRegistry.register_accepted h1 h2]
    exact ToolRegistry.mapGet_mapSet_self _ _
  · intro r now now' origin c d tabId url auth _ h1 h2
    have hsome : ToolRegistry.mapGet
        ((ToolRegistry.register r now' tabId url origin d auth).2.1).tools
        (origin ++ "::" ++ d.name) =
        some (ToolRegistry.mkLiveTool now' tabId url origin d auth) := by
      rw [ToolRegistry.register_accepted h1 h2]
      exact ToolRegistry.mapGet_mapSet_self _ _
    exact (ToolRegistry.curatedInsert_mapGet now origin [c] _ _
      (by rw [hsome]; rfl)).trans hsome

theorem C8_live_precedence_witness :
    ToolRegistry.mapGet
      ((ToolRegistry.register
        (ToolRegistry.registerCurated ToolRegistry.empty 0 "https://b.test" [cCur]).1 1 4
        "https://b.test/x" "https://b.test" dSend AuthState.authenticated).2.1).tools
      ("https://b.test" ++ "::" ++ dSend.name) =
      some (ToolRegistry.mkLiveTool 1 4 "https://b.test/x" "https://b.test" dSend
        AuthState.authenticated) :=
  C8_live_precedence.2.2.1 ToolRegistry.empty 0 1 "https://b.test" cCur dSend 4
    "https://b.test/x" AuthState.authenticated rfl (by decide) (by decide)

/-! ## Claim C9 -/

/-- Replace every listener's `throws` flag according to `g`, keeping
identities and order: the environment cannot influence anything except by
listeners throwing. -/
def setThrows (r : ToolRegistry) (g : Nat → Bool) : ToolRegistry :=
  { r with listeners := r.listeners.map (fun l => ⟨l.lid, g l.lid⟩) }

theorem notifyEvents_setThrows (r : ToolRegistry) (g : Nat → Bool) :
    ToolRegistry.notifyEvents (setThrows r g) = ToolRegistry.notifyEvents r := by
  unfold setThrows ToolRegistry.notifyEvents
  rw [List.map_map]
  rfl

/-- Claim C9, amended.  Every mutating operation that fires listeners
fires all of them, in registration order, synchronously (the event list is
part of the operation's return value): `register` on success,
`unregister` on an actual deletion, `registerCurated` always,
`updateAuthState` when some entry changed, `restore` when something was
restored.  A listener that throws affects nothing — the catalog outcome
and the invocation list are independent of the `throws` flags, because
each invocation is wrapped in `try`/`catch`.  (As originally stated the
claim is false: `bindCuratedToTab` mutates catalog contents — it rebinds
curated entries to a live tab — but contains no `notifyListeners` call and
fires nothing; see the counterexample.) -/
theorem C9_notifications :
    (∀ (r : ToolRegistry) (now : Nat) (tabId : Int) (url origin : String)
      (d : DiscoveredTool) (auth : AuthState) (tool : RegisteredTool),
      (ToolRegistry.register r now tabId url origin d auth).1 = some tool →
      (ToolRegistry.register r now tabId url origin d auth).2.2 =
        ToolRegistry.notifyEvents r) ∧
    (∀ (r : ToolRegistry) (id : String),
      (r.tools.any fun u => u.id == id) = true →
      (ToolRegistry.unregister r id).2 = ToolRegistry.notifyEvents r) ∧
    (∀ (r : ToolRegistry) (now : Nat) (origin : String) (cs : List CuratedToolDef),
      (ToolRegistry.registerCurated r now origin cs).2 = ToolRegistry.notifyEvents r) ∧
    (∀ (r : ToolRegistry) (origin : String) (auth : AuthState),
      (r.tools.any fun t => t.origin == origin && decide (t.authState ≠ auth)) = true →
      (ToolRegistry.updateAuthState r origin auth).2 = ToolRegistry.notifyEvents r) ∧
    (∀ (r : ToolRegistry) (snap : List RegisteredTool),
      (ToolRegistry.restoreMerge r.tools snap).2 > 0 →
      (ToolRegistry.restore r snap).2 = ToolRegistry.notifyEvents r) ∧
    (∀ (r : ToolRegistry) (now : Nat) (origin : String) (tabId : Int) (auth : AuthState),
      (ToolRegistry.bindCuratedToTab r now origin tabId auth).2 = []) ∧
    (∀ (r : ToolRegistry) (g : Nat → Bool) (now : Nat) (tabId : Int) (url origin : String)
      (d : DiscoveredTool) (auth : AuthState),
      ((ToolRegistry.register (setThrows r g) now tabId url origin d auth).2.1).tools =
        ((ToolRegistry.register r now tabId url origin d auth).2.1).tools ∧
      (ToolRegistry.register (setThrows r g) now tabId url origin d auth).2.2 =
        (ToolRegistry.register r now tabId url origin d auth).2.2) := by
  refine ⟨?_, ?_, ?_, ?_, ?_, ?_, ?_⟩
  · intro r now tabId url origin d auth tool h
    by_cases h1 : r.tools.length ≥ MAX_TOTAL_TOOLS
    · rw [ToolRegistry.register_rejected_total h1] at h; simp at h
    by_cases h2 : (ToolRegistry.getByOrigin r origin).length ≥ MAX_TOOLS_PER_ORIGIN
    · rw [ToolRegistry.register_rejected_origin h1 h2] at h; simp at h
    rw [ToolRegistry.register_accepted h1 h2]
  · intro r id h
    unfold ToolRegistry.unregister
    rw [if_pos h]
  · intro r now origin cs
    rfl
  · intro r origin auth h
    show (if (r.tools.any fun t => t.origin == origin && decide (t.authState ≠ auth)) =
        true then ToolRegistry.notifyEvents r else []) = ToolRegistry.notifyEvents r
    rw [if_pos h]
  · intro r snap h
    show (if (ToolRegistry.restoreMerge r.tools snap).2 > 0 then
        ToolRegistry.notifyEvents r else []) = ToolRegistry.notifyEvents r
    rw [if_pos h]
  · intro r now origin tabId auth
    rfl
  · intro r g now tabId url origin d auth
    have htools : (setThrows r g).tools = r.tools := rfl
    by_cases h1 : r.tools.length ≥ MAX_TOTAL_TOOLS
    · rw [ToolRegistry.register_rejected_total (r := setThrows r g) h1,
        ToolRegistry.register_rejected_total h1]
      exact ⟨rfl, rfl⟩
    by_cases h2 : (ToolRegistry.getByOrigin r origin).length ≥ MAX_TOOLS_PER_ORIGIN
    · rw [ToolRegistry.register_rejected_origin (r := setThrows r g) h1 h2,
        ToolRegistry.register_rejected_origin h1 h2]
      exact ⟨rfl, rfl⟩
    rw [ToolRegistry.register_accepted (r := setThrows r g) h1 h2,
      ToolRegistry.register_accepted h1 h2]
    exact ⟨rfl, notifyEvents_setThrows r g⟩

def c9wReg : ToolRegistry := ToolRegistry.onChange ToolRegistry.empty ⟨3, true⟩

theorem C9_notifications_witness :
    (ToolRegistry.register c9wReg 0 1 "https://a.test/x" "https://a.test" dGo
      AuthState.unknown).2.2 = [3] :=
  C9_notifications.1 c9wReg 0 1 "https://a.test/x" "https://a.test" dGo AuthState.unknown
    (ToolRegistry.mkLiveTool 0 1 "https://a.test/x" "https://a.test" dGo
      AuthState.unknown) rfl

def c9Reg : ToolRegistry :=
  ToolRegistry.onChange
    (ToolRegistry.registerCurated ToolRegistry.empty 0 "https://b.test" [cCur]).1
    ⟨0, false⟩

def c9Bind : ToolRegistry × List Nat :=
  ToolRegistry.bindCuratedToTab c9Reg 1 "https://b.test" 5 AuthState.authenticated

/-- Claim C9, counterexample.  `bindCuratedToTab` visibly alters catalog
contents (the curated entry's binding changes from the unbound sentinel to
tab 5, which changes what `getForMCP` surfaces), a listener is registered,
yet the operation invokes no listener at all. -/
theorem C9_counterexample :
    c9Reg.tools.map (fun t => t.tabId) = [-1] ∧
    (c9Bind.1).tools.map (fun t => t.tabId) = [5] ∧
    c9Reg.listeners.map (fun l => l.lid) = [0] ∧
    c9Bind.2 = [] :=
  ⟨rfl, rfl, rfl, rfl⟩

/-! ## Claim C10 -/

theorem append_data_five {a : String} (b : String) (h : 5 < a.data.length) :
    (a ++ b).data[5]? = a.data[5]? := by
  rw [String.data_append]
  exact List.getElem?_append_left h

theorem append_data_len {a b : String} :
    (a ++ b).data.length = a.data.length + b.data.length := by
  rw [String.data_append, List.length_append]

theorem noTab_data5 (n o : String) : (noTabText n o).data[5]? = some '"' := by
  have h0 : ("Tool \"" : String).data.length = 6 := rfl
  have h1 : 5 < (("Tool \"" : String) ++ n).data.length := by
    rw [append_data_len, h0]; omega
  have h2 : 5 < ((("Tool \"" : String) ++ n) ++
      "\" is available but no browser tab is open for ").data.length := by
    rw [append_data_len]; omega
  have h3 : 5 < (((("Tool \"" : String) ++ n) ++
      "\" is available but no browser tab is open for ") ++ o).data.length := by
    rw [append_data_len]; omega
  show ((((("Tool \"" : String) ++ n) ++
    "\" is available but no browser tab is open for ") ++ o) ++
    ". Please open the site in a tab first.").data[5]? = some '"'
  rw [append_data_five _ h3, append_data_five _ h2, append_data_five _ h1,
    append_data_five _ (by decide : 5 < ("Tool \"" : String).data.length)]
  rfl

theorem notFound_data5 (s : String) : (notFoundText s).data[5]? = some 'n' := by
  show (("Tool not found: " : String) ++ s).data[5]? = some 'n'
  rw [append_data_five _ (by decide : 5 < ("Tool not found: " : String).data.length)]
  rfl

theorem noTab_ne_notFound (n o s : String) : noTabText n o ≠ notFoundText s := by
  intro h
  have h5 := congrArg (fun t : String => t.data[5]?) h
  simp only [noTab_data5, notFound_data5] at h5
  exact absurd (Option.some.inj h5) (by decide)

/-- Claim C10, amended.  A curated entry still at the unbound sentinel is
excluded from the protocol list's source (the unbound-bundle filter of
`getForMCP` drops it), yet `resolveFromMCPName` applies no such filter: if
the entry's protocol name resolves to it and its auth state is not
`login-required`, `tools/call` returns the no-browser-tab error result —
not the `Tool not found` one — sending nothing and leaving the registry
unchanged.  (As originally stated the claim is false: for an unbound
curated entry whose auth state is `login-required`, the call returns the
authentication error instead of the no-browser-tab one; see the
counterexample.) -/
theorem C10_unbound_resolution :
    ∀ (r : ToolRegistry) (t : RegisteredTool) (args : List (String × String))
      (reqId : String) (dispatch : DispatchOutcome),
    t.source = ToolSource.curatedBundle → t.tabId = -1 →
    t.authState ≠ AuthState.loginRequired →
    ToolRegistry.resolveFromMCPName r (toMCPName t) = some t →
    (t ∉ (ToolRegistry.getAll r).filter (fun u =>
      !(decide (u.source = ToolSource.curatedBundle) && u.tabId == (-1 : Int)))) ∧
    executeToolCall r (toMCPName t) args reqId dispatch =
      { result := { content := [{ type := "text", text := noTabText t.name t.origin }]
                    isError := some true }
        registry := r, sentMessage := none } ∧
    noTabText t.name t.origin ≠ notFoundText (toMCPName t) := by
  intro r t args reqId dispatch hsrc htab hauth hres
  refine ⟨?_, ?_, noTab_ne_notFound _ _ _⟩
  · intro hmem
    have hp := (List.mem_filter.mp hmem).2
    rw [hsrc, htab] at hp
    simp at hp
  · unfold executeToolCall
    rw [hres]
    dsimp only
    rw [if_neg hauth, if_pos htab]

def c10wReg : ToolRegistry :=
  (ToolRegistry.registerCurated ToolRegistry.empty 0 "https://b.test" [cCur]).1

def c10wTool : RegisteredTool := ToolRegistry.curatedEntry 0 "https://b.test" cCur

theorem C10_unbound_resolution_witness :
    executeToolCall c10wReg (toMCPName c10wTool) [] "rq" DispatchOutcome.timeout =
      { result := { content := [{ type := "text"
                                  text := noTabText "send" "https://b.test" }]
                    isError := some true }
        registry := c10wReg, sentMessage := none } :=
  (C10_unbound_resolution c10wReg c10wTool [] "rq" DispatchOutcome.timeout rfl rfl
    (by decide) rfl).2.1

/-- Claim C10, counterexample.  The unbound curated entry at
`https://b.test` was moved to `login-required` by `updateAuthState`; it is
absent from the protocol list, it still resolves, but the call returns the
authentication error — not the no-browser-tab error the claim promises. -/
theorem C10_counterexample :
    (ToolRegistry.resolveFromMCPName c4xReg "b_test__send").map
      (fun t => decide (t.source = ToolSource.curatedBundle) && t.tabId == (-1 : Int)) =
      some true ∧
    (ToolRegistry.getForMCP c4xReg).length = 0 ∧
    (executeToolCall c4xReg "b_test__send" [] "rq" DispatchOutcome.timeout).result.content =
      [{ type := "text", text := authRequiredText "https://b.test" }] ∧
    authRequiredText "https://b.test" ≠ noTabText "send" "https://b.test" :=
  ⟨rfl, rfl, rfl, by decide⟩

end AgentGateway
